import Mathlib

/-!
Verification of the extraction/upsert layer of the plan-for-change-dashboard
repository.

The development shallowly embeds the fetcher pipeline of the repository:
spreadsheet cells become a `Cell` datatype, JS numbers become `ℚ`, JS strings
stay `String` but are processed through `List Char` helpers mirroring the JS
string builtins, and the SQLite tables become explicit list-of-row states with
`INSERT OR REPLACE` modelled as delete-conflicting-then-append (with the
`AUTOINCREMENT` id sequence and the `fetched_at` default made explicit).
Sources: `src/lib/db.ts`, `src/lib/fetchers/housing.ts`,
`src/lib/fetchers/police.ts`, `src/lib/fetchers/ons.ts`, and the GOV.UK /
bills fetchers.
-/

namespace Dashboard

/-! ### JavaScript string and number primitives

JS semantics modelled here: `String.prototype.toLowerCase` (ASCII range, the
only one exercised by the fetchers), `trim`, `includes`, `length` (code units;
all cells involved are ASCII so code units = characters), `parseFloat`,
`parseInt` on digit captures, `localeCompare` (modelled as code-unit
comparison), and `Math.round` (floor of x + 1/2, which is Mathlib's `round`).
-/

/-- Digits-to-number, used for regex capture groups fed to `parseInt(_, 10)`. -/
def natOfDigits (ds : List Char) : ℕ :=
  ds.foldl (fun a c => a * 10 + (c.toNat - 48)) 0

/-- JS `toLowerCase` on the ASCII range (Lean's `Char.toLower`). -/
def lowerStr (s : String) : String :=
  ⟨s.data.map Char.toLower⟩

/-- Strip leading and trailing whitespace from a character list. -/
def trimChars (l : List Char) : List Char :=
  ((l.dropWhile Char.isWhitespace).reverse.dropWhile Char.isWhitespace).reverse

/-- JS `String.prototype.trim`. -/
def trimStr (s : String) : String :=
  ⟨trimChars s.data⟩

/-- Boolean list-prefix test over characters. -/
def chPre : List Char → List Char → Bool
  | [], _ => true
  | _ :: _, [] => false
  | a :: as, b :: bs => a == b && chPre as bs

/-- Does `sub` occur as a contiguous run inside `l`? -/
def chInfix (sub : List Char) : List Char → Bool
  | [] => chPre sub []
  | c :: r => chPre sub (c :: r) || chInfix sub r

/-- JS `String.prototype.includes`. -/
def strContainsB (s sub : String) : Bool :=
  chInfix sub.data s.data

/-- JS string length (code units; ASCII here, so characters). -/
def jsLength (s : String) : ℕ :=
  s.data.length

/-- Three-way code-unit comparison of character lists. -/
def chCmp : List Char → List Char → Ordering
  | [], [] => .eq
  | [], _ :: _ => .lt
  | _ :: _, [] => .gt
  | a :: as, b :: bs =>
    if a.toNat < b.toNat then .lt
    else if b.toNat < a.toNat then .gt
    else chCmp as bs

/-- JS `a.localeCompare(b) <= 0`, modelled as code-unit order. -/
def strLeb (a b : String) : Bool :=
  match chCmp a.data b.data with
  | .gt => false
  | _ => true

/-- The sort relation `(a, b) => a.date.localeCompare(b.date)` as a `Prop`. -/
def strLeP (a b : String) : Prop :=
  strLeb a b = true

instance : DecidableRel strLeP := fun a b => by
  unfold strLeP; infer_instance

/-- One fractional digit of `n/d` (`n < d`), as produced by decimal printing. -/
def fracDigits : ℕ → ℕ → ℕ → List Char
  | 0, _, _ => []
  | _, 0, _ => []
  | f + 1, n, d =>
    Char.ofNat (48 + (n * 10) / d) :: fracDigits f ((n * 10) % d) d

/-- Decimal rendering of a rational, standing in for JS number-to-string
conversion (`String(cell)` on a numeric cell). Integers print exactly; a
fractional part prints up to 17 digits. The fetcher code only ever matches
such renderings against letter keywords or date patterns, neither of which a
digit string can satisfy, so the tail-digit convention is unobservable. -/
def ratDecimalString (q : ℚ) : String :=
  let sign := if q < 0 then "-" else ""
  let n := q.num.natAbs
  let i := n / q.den
  let r := n % q.den
  if r = 0 then sign ++ toString i
  else sign ++ toString i ++ "." ++ ⟨fracDigits 17 r q.den⟩

/-- A spreadsheet cell as produced by `XLSX.utils.sheet_to_json(sheet,
{header: 1, defval: null})`: a number, a string, or `null`. -/
inductive Cell where
  | num (q : ℚ)
  | str (s : String)
  | null
deriving DecidableEq

/-- JS `String(cell ?? "")`: the fetchers' uniform cell-to-text coercion. -/
def jsCellString : Cell → String
  | .num q => ratDecimalString q
  | .str s => s
  | .null => ""

/-- A sheet row; `none` is a hole (`rows[i]` undefined), guarded in the source
by `if (!row) continue` / `break`. -/
abbrev Row := Option (List Cell)

/-- A sheet as a grid of rows. -/
abbrev Grid := List Row

/-- Cell `row[j] ?? null` (out-of-range access yields `undefined`/`null`). -/
def cellAt (row : List Cell) (j : ℕ) : Cell :=
  row.getD j Cell.null

/-- `String(row[j] ?? "")` as the fetchers write it. -/
def cellTextAt (row : List Cell) (j : ℕ) : String :=
  jsCellString (cellAt row j)

/-- The character-level decomposition `parseFloat` extracts: sign, integer
digits, fraction digits, exponent. Separated from the rational assembly so
that concrete parses evaluate by kernel reduction. -/
structure FloatRep where
  neg : Bool
  ip : List Char
  fp : List Char
  ex : ℤ
deriving DecidableEq

/-- Exponent suffix of a float literal (`e`/`E`, optional sign, digits);
an `e` not followed by digits contributes exponent `0` (it is simply not
consumed by `parseFloat`'s number prefix). -/
def floatExpOf (cs : List Char) : ℤ :=
  match cs with
  | 'e' :: r | 'E' :: r =>
    match r with
    | '-' :: r2 =>
      let ds := r2.takeWhile Char.isDigit
      if ds.isEmpty then 0 else -(natOfDigits ds : ℤ)
    | '+' :: r2 =>
      let ds := r2.takeWhile Char.isDigit
      if ds.isEmpty then 0 else (natOfDigits ds : ℤ)
    | _ =>
      let ds := r.takeWhile Char.isDigit
      if ds.isEmpty then 0 else (natOfDigits ds : ℤ)
  | _ => 0

/-- JS `parseFloat`, character-level phase: skip whitespace, optional sign,
integer and fractional digits (at least one digit required), optional
exponent; `none` is `NaN`. Parses the longest valid prefix, as `parseFloat`
does. -/
def jsParseFloatRep (s : String) : Option FloatRep :=
  let cs := s.data.dropWhile Char.isWhitespace
  let sgn : Bool × List Char :=
    match cs with
    | '-' :: r => (true, r)
    | '+' :: r => (false, r)
    | _ => (false, cs)
  let ip := sgn.2.takeWhile Char.isDigit
  let cs1 := sgn.2.dropWhile Char.isDigit
  let fpr : List Char × List Char :=
    match cs1 with
    | '.' :: r => (r.takeWhile Char.isDigit, r.dropWhile Char.isDigit)
    | _ => ([], cs1)
  if ip.isEmpty ∧ fpr.1.isEmpty then none
  else some ⟨sgn.1, ip, fpr.1, floatExpOf fpr.2⟩

/-- The rational a parsed float decomposition denotes. -/
def floatRepVal (r : FloatRep) : ℚ :=
  let mant : ℚ := (natOfDigits r.ip : ℚ) + (natOfDigits r.fp : ℚ) / (10 ^ r.fp.length)
  let v := mant * (10 : ℚ) ^ r.ex
  if r.neg then -v else v

/-- JS `parseFloat` over the rationals. -/
def jsParseFloat (s : String) : Option ℚ :=
  (jsParseFloatRep s).map floatRepVal

/-- `s.replace(/,/g, "")` (housing value coercion). -/
def stripCommas (s : String) : String :=
  ⟨s.data.filter (fun c => !(c == ','))⟩

/-- `s.replace(/[%,\s]/g, "")` (police numeric cell coercion). -/
def stripPctCommaWs (s : String) : String :=
  ⟨s.data.filter (fun c => !(c == '%' || c == ',' || c.isWhitespace))⟩

/-- JS `s.startsWith(p)`. -/
def strStartsWithB (s p : String) : Bool :=
  chPre p.data s.data

/-! ### The `kpi_snapshots` store (src/lib/db.ts lines 21-29)

`CREATE TABLE kpi_snapshots (id INTEGER PRIMARY KEY AUTOINCREMENT,
milestone_slug TEXT, value REAL, date TEXT, label TEXT, fetched_at TEXT
DEFAULT (datetime('now')), UNIQUE(milestone_slug, date))`. The state keeps
the `AUTOINCREMENT` sequence explicitly (SQLite never reuses an id) and
timestamps are abstract naturals supplied per statement execution. -/

structure KpiRow where
  id : ℕ
  milestoneSlug : String
  value : ℚ
  date : String
  label : String
  fetchedAt : ℕ
deriving DecidableEq

structure KpiState where
  seq : ℕ
  rows : List KpiRow
deriving DecidableEq

/-- The `UNIQUE(milestone_slug, date)` key. -/
def kpiKeyMatches (slug date : String) (r : KpiRow) : Bool :=
  r.milestoneSlug == slug && r.date == date

/-- `INSERT OR REPLACE INTO kpi_snapshots (milestone_slug, value, date, label)
VALUES (?, ?, ?, ?)`: SQLite deletes any row conflicting on the unique key and
inserts a fresh row, which takes a fresh `AUTOINCREMENT` id and the
`fetched_at` default of the execution time `t`. -/
def kpiInsertOrReplace (slug : String) (v : ℚ) (d l : String) (t : ℕ)
    (st : KpiState) : KpiState :=
  { seq := st.seq + 1
    rows := st.rows.filter (fun r => !kpiKeyMatches slug d r) ++
      [⟨st.seq + 1, slug, v, d, l, t⟩] }

/-- The observable (non-surrogate) columns of a KPI row: everything except
the `AUTOINCREMENT` id and the `fetched_at` timestamp. -/
structure KpiObsRow where
  milestoneSlug : String
  value : ℚ
  date : String
  label : String
deriving DecidableEq

def kpiObsRow (r : KpiRow) : KpiObsRow :=
  ⟨r.milestoneSlug, r.value, r.date, r.label⟩

/-- Projection of the store onto its observable columns. -/
def kpiObserve (st : KpiState) : List KpiObsRow :=
  st.rows.map kpiObsRow

/-- The `(milestone_slug, date)` keys of the store, in row order. -/
def kpiKeys (st : KpiState) : List (String × String) :=
  st.rows.map (fun r => (r.milestoneSlug, r.date))

/-! ### The `outputs` store (src/lib/db.ts lines 31-48) and its upserts
(the GOV.UK search fetcher and the Parliament bills fetcher) -/

structure OutputRow where
  id : String
  milestoneSlug : String
  outType : String
  title : String
  description : String
  url : String
  source : String
  status : String
  publishedDate : String
  lastUpdated : String
  department : String
  confidence : String
  dismissed : Bool
  rationale : Option String
  rationaleUpdatedAt : Option String
  fetchedAt : ℕ
deriving DecidableEq

/-- `INSERT OR REPLACE INTO outputs ...`: `id` is the primary key, so the
conflicting row (if any) is deleted and the incoming row inserted whole. -/
def outputsInsertOrReplace (row : OutputRow) (tbl : List OutputRow) :
    List OutputRow :=
  tbl.filter (fun r => !(r.id == row.id)) ++ [row]

/-- The row written by `fetchGovukOutputs`' prepared statement:
`INSERT OR REPLACE INTO outputs (id, milestone_slug, type, title, description,
url, source, status, published_date, last_updated, department, confidence,
dismissed) VALUES (?, ?, ?, ?, ?, ?, 'govuk', '', ?, ?, ?, ?, 0)`. Columns
not in the list (`rationale`, `rationale_updated_at`, `fetched_at`) take
their defaults. -/
def govukOutputRow (id slug otype title desc url pub dept conf : String)
    (t : ℕ) : OutputRow :=
  { id := id, milestoneSlug := slug, outType := otype, title := title
    description := desc, url := url, source := "govuk", status := ""
    publishedDate := pub, lastUpdated := pub, department := dept
    confidence := conf, dismissed := false, rationale := none
    rationaleUpdatedAt := none, fetchedAt := t }

/-- The row written by `fetchBills`' prepared statement:
`INSERT OR REPLACE INTO outputs (...) VALUES (?, ?, 'bill', ?, '', ?,
'parliament', ?, ?, ?, '', 'high', 0)`. -/
def billOutputRow (billId : ℕ) (slug title status lastUpdated : String)
    (t : ℕ) : OutputRow :=
  { id := "bill-" ++ toString billId, milestoneSlug := slug, outType := "bill"
    title := title, description := ""
    url := "https://bills.parliament.uk/bills/" ++ toString billId
    source := "parliament", status := status, publishedDate := lastUpdated
    lastUpdated := lastUpdated, department := "", confidence := "high"
    dismissed := false, rationale := none, rationaleUpdatedAt := none
    fetchedAt := t }

/-! ### Housing fetcher (src/lib/fetchers/housing.ts)

Financial-year parsing, the two table-extraction strategies, sheet selection,
the three-strategy URL discovery chain, and the final upsert transaction. -/

/-- The regex `(\d{4})\s*[-\/]\s*(\d{2,4})` attempted at one position:
four digits, optional whitespace, a hyphen or slash, optional whitespace, two
to four digits (greedy). Returns the two capture groups. -/
def fyMatchAt (cs : List Char) : Option (List Char × List Char) :=
  let d4 := cs.take 4
  if d4.length = 4 ∧ d4.all Char.isDigit then
    match (cs.drop 4).dropWhile Char.isWhitespace with
    | c :: r =>
      if c = '-' ∨ c = '/' then
        let ds := (r.dropWhile Char.isWhitespace).takeWhile Char.isDigit
        if 2 ≤ ds.length then some (d4, ds.take 4) else none
      else none
    | [] => none
  else none

/-- `String.prototype.match`: first position (left to right) where the
financial-year regex matches. -/
def fyScan : List Char → Option (List Char × List Char)
  | [] => none
  | c :: r =>
    match fyMatchAt (c :: r) with
    | some m => some m
    | none => fyScan r

/-- `parseFinancialYear` (housing.ts lines 326-341): parse "2022-23",
"2022/23" or "2022-2023" and return the ending calendar year; a two-digit
suffix is completed with the start year's century. -/
def parseFinancialYear (raw : String) : Option ℕ :=
  match fyScan raw.data with
  | none => none
  | some (y4, suffix) =>
    let startYear := natOfDigits y4
    if suffix.length = 2 then
      some (startYear / 100 * 100 + natOfDigits suffix)
    else
      some (natOfDigits suffix)

/-- `normaliseLabel` (housing.ts lines 346-350): `${endYear - 1}-` followed
by `String(endYear).slice(2)`. -/
def normaliseLabel (endYear : ℕ) : String :=
  toString (endYear - 1) ++ "-" ++ ⟨(toString endYear).data.drop 2⟩

/-- `MIN_YEAR` (housing.ts line 27). -/
def MIN_YEAR : ℕ := 2015

/-- Value acceptance shared by both housing strategies: a numeric cell greater
than zero, or a string whose comma-stripped `parseFloat` is greater than
zero. -/
def acceptPositive : Cell → Option ℚ
  | .num v => if 0 < v then some v else none
  | .str s =>
    match jsParseFloat (stripCommas s) with
    | some p => if 0 < p then some p else none
    | none => none
  | .null => none

/-- The column-oriented strategy's positional fallback: any cell whose number
(or comma-stripped parse) exceeds 1000. -/
def acceptOver1000 : Cell → Option ℚ
  | .num v => if 1000 < v then some v else none
  | .str s =>
    match jsParseFloat (stripCommas s) with
    | some p => if 1000 < p then some p else none
    | none => none
  | .null => none

structure HousingDataPoint where
  value : ℚ
  date : String
  label : String
deriving DecidableEq

/-- Keyword match for the column-oriented header scan (housing.ts lines
402-414): the lower-cased trimmed cell contains "net additional" or "total"
or "net supply", or equals "england". -/
def housingValueHeaderMatch (c : Cell) : Bool :=
  let cellStr := trimStr (lowerStr (jsCellString c))
  strContainsB cellStr ("net additional") || strContainsB cellStr ("total") ||
    cellStr == "england" || strContainsB cellStr ("net supply")

/-- First column index in a row whose cell matches the header keywords (the
inner `for j` loop with `break`). -/
def housingHeaderColAux (j : ℕ) : List Cell → Option ℕ
  | [] => none
  | c :: r =>
    if housingValueHeaderMatch c then some j else housingHeaderColAux (j + 1) r

def housingHeaderCol (row : List Cell) : Option ℕ :=
  housingHeaderColAux 0 row

/-- The outer header scan of `extractColumnOriented`, bounded to the first 30
rows (`i < Math.min(rows.length, 30)`), skipping holes; yields the value
column index and the rows after the header row. -/
def housingColHeaderSplit : ℕ → Grid → Option (ℕ × Grid)
  | 0, _ => none
  | _ + 1, [] => none
  | n + 1, r :: rest =>
    match r with
    | none => housingColHeaderSplit n rest
    | some row =>
      match housingHeaderCol row with
      | some j => some (j, rest)
      | none => housingColHeaderSplit n rest

/-- The data-row loop of `extractColumnOriented` (housing.ts lines 426-477):
column 0 must parse as a financial year at or after `MIN_YEAR`; the value is
the labelled column's cell if positive, otherwise the first cell beyond
column 0 exceeding 1000; values are rounded to the nearest integer; date is
31 March of the end year. -/
def extractColumnRows (valueColIdx : ℕ) : Grid → List HousingDataPoint
  | [] => []
  | none :: rest => extractColumnRows valueColIdx rest
  | some row :: rest =>
    match parseFinancialYear (trimStr (jsCellString (cellAt row 0))) with
    | none => extractColumnRows valueColIdx rest
    | some endYear =>
      if endYear < MIN_YEAR then extractColumnRows valueColIdx rest
      else
        let value? : Option ℚ :=
          match acceptPositive (cellAt row valueColIdx) with
          | some v => some v
          | none => (row.drop 1).findSome? acceptOver1000
        match value? with
        | none => extractColumnRows valueColIdx rest
        | some v =>
          ⟨(round v : ℚ), toString endYear ++ "-03-31", normaliseLabel endYear⟩ ::
            extractColumnRows valueColIdx rest

/-- `extractColumnOriented` (housing.ts lines 390-480). When no labelled
value column is found in the first 30 rows, column 1 is used and scanning
starts from row 0. -/
def extractColumnOriented (rows : Grid) : List HousingDataPoint :=
  match housingColHeaderSplit 30 rows with
  | some (j, rest) => extractColumnRows j rest
  | none => extractColumnRows 1 rows

/-- The `(colIdx, endYear)` pairs of a candidate header row: every cell whose
trimmed text parses as a financial year with end year in [2000, 2100]. -/
def rowYearColsAux (j : ℕ) : List Cell → List (ℕ × ℕ)
  | [] => []
  | c :: r =>
    match parseFinancialYear (trimStr (jsCellString c)) with
    | some e =>
      if 2000 ≤ e ∧ e ≤ 2100 then (j, e) :: rowYearColsAux (j + 1) r
      else rowYearColsAux (j + 1) r
    | none => rowYearColsAux (j + 1) r

def rowYearCols (row : List Cell) : List (ℕ × ℕ) :=
  rowYearColsAux 0 row

/-- Header scan of `extractRowOriented` (housing.ts lines 494-513): the first
row among the first 30 with at least three financial-year columns. -/
def housingRowHeaderSplit : ℕ → Grid → Option (List (ℕ × ℕ) × Grid)
  | 0, _ => none
  | _ + 1, [] => none
  | n + 1, none :: rest => housingRowHeaderSplit n rest
  | n + 1, some row :: rest =>
    let yc := rowYearCols row
    if 3 ≤ yc.length then some (yc, rest) else housingRowHeaderSplit n rest

/-- The grand-total data-row label match (housing.ts lines 522-531). -/
def housingLabelMatch (row : List Cell) : Bool :=
  let label := trimStr (lowerStr (jsCellString (cellAt row 0)))
  strContainsB label ("total net additional") ||
    strContainsB label ("net additional dwellings") ||
    (strContainsB label ("net additional") && !strContainsB label ("of which")) ||
    label == "england" || label == "total"

/-- First data row below the header matching the label (the loop breaks after
the first match). -/
def findHousingDataRow : Grid → Option (List Cell)
  | [] => none
  | none :: rest => findHousingDataRow rest
  | some row :: rest =>
    if housingLabelMatch row then some row else findHousingDataRow rest

/-- Per-year-column extraction from the matched data row (housing.ts lines
533-557). -/
def extractRowValues (row : List Cell) : List (ℕ × ℕ) → List HousingDataPoint
  | [] => []
  | (colIdx, endYear) :: yc =>
    if endYear < MIN_YEAR then extractRowValues row yc
    else
      match acceptPositive (cellAt row colIdx) with
      | none => extractRowValues row yc
      | some v =>
        ⟨(round v : ℚ), toString endYear ++ "-03-31", normaliseLabel endYear⟩ ::
          extractRowValues row yc

/-- `extractRowOriented` (housing.ts lines 487-562). -/
def extractRowOriented (rows : Grid) : List HousingDataPoint :=
  match housingRowHeaderSplit 30 rows with
  | none => []
  | some (yc, rest) =>
    match findHousingDataRow rest with
    | none => []
    | some row => extractRowValues row yc

/-- `extractHousingData` (housing.ts lines 362-384): row-oriented first,
then column-oriented; first non-empty result wins. -/
def extractHousingData (rows : Grid) : List HousingDataPoint :=
  match extractRowOriented rows with
  | [] => extractColumnOriented rows
  | r => r

/-- A parsed workbook: named sheets, each already converted to a grid (the
`XLSX.utils.sheet_to_json(sheet, {header: 1, defval: null})` view). -/
abbrev Workbook := List (String × Grid)

def sheetLookup (wb : Workbook) (name : String) : Option Grid :=
  (wb.find? (fun s => s.1 == name)).map (·.2)

/-- `findDataSheet` (housing.ts lines 279-310): exact candidate names, then
any sheet whose name contains "120", then the first sheet. -/
def findDataSheet (wb : Workbook) : Option Grid :=
  (sheetLookup wb ("Table 120")).orElse fun _ =>
  (sheetLookup wb ("LiveTable120")).orElse fun _ =>
  (sheetLookup wb ("Live Table 120")).orElse fun _ =>
  (sheetLookup wb ("120")).orElse fun _ =>
  ((wb.find? (fun s => strContainsB (lowerStr s.1) ("120"))).map (·.2)).orElse fun _ =>
  (wb.head?.map (·.2))

/-- The sort relation of `dataPoints.sort((a, b) =>
a.date.localeCompare(b.date))`. JS `Array.prototype.sort` is stable, so the
stable `insertionSort` is the exact model. -/
def hdpLE (a b : HousingDataPoint) : Prop := strLeP a.date b.date

instance : DecidableRel hdpLE := fun a b => by
  unfold hdpLE; infer_instance

def sortHousingByDate (l : List HousingDataPoint) : List HousingDataPoint :=
  List.insertionSort hdpLE l

/-- The upsert transaction of `fetchHousingSupply` (housing.ts lines 632-645):
one `INSERT OR REPLACE` per point, all with `milestone_slug = 'housing'`,
executed at time `t`. -/
def kpiInsertAllHousing (pts : List HousingDataPoint) (t : ℕ)
    (st : KpiState) : KpiState :=
  pts.foldl (fun s p => kpiInsertOrReplace ("housing") p.value p.date p.label t s) st

/-- The outcomes of the three discovery strategies and of the download, as
the environment the fetch runs against. -/
structure HousingFetchEnv where
  contentApi : Option String
  searchApi : Option String
  htmlPage : Option String
  download : String → Option Workbook

/-- The discovery fallback chain of `fetchHousingSupply` (housing.ts lines
576-586): content API, then search API, then HTML scraping. The boolean
records whether the HTML strategy was invoked. -/
def discoverChain (r1 r2 r3 : Option String) : Option String × Bool :=
  match r1 with
  | some u => (some u, false)
  | none =>
    match r2 with
    | some u => (some u, false)
    | none => (r3, true)

/-- The data points one run of `fetchHousingSupply` computes before touching
the store (housing.ts lines 572-621): discover a URL, absolutise it, download
and parse, select the sheet, extract; every failed step produces no points.
All of it depends only on the environment, never on the store. -/
def housingPoints (env : HousingFetchEnv) : List HousingDataPoint :=
  match (discoverChain env.contentApi env.searchApi env.htmlPage).1 with
  | none => []
  | some url0 =>
    match env.download (if strStartsWithB url0 ("/") then "https://www.gov.uk" ++ url0
        else url0) with
    | none => []
    | some wb =>
      match findDataSheet wb with
      | none => []
      | some sheet => extractHousingData sheet

/-- `fetchHousingSupply` (housing.ts lines 572-651): when any step of the
chain fails (no URL from any strategy, failed download or parse, no sheet, no
extracted points) the function returns with the store untouched; otherwise it
sorts the points by date ascending and upserts them inside one
transaction. -/
def fetchHousingSupplyModel (env : HousingFetchEnv) (t : ℕ)
    (st : KpiState) : KpiState :=
  match housingPoints env with
  | [] => st
  | pts => kpiInsertAllHousing (sortHousingByDate pts) t st

/-! ### Energy Trends fetcher (the energy section of src/lib/fetchers/police.ts)

Quarter utilities, the numeric cell coercion, the shared
fraction-to-percentage scaling, the transposed-header parser, and
`extractFromTransposedSheet`. -/

/-- `CUTOFF_YEAR` (police.ts line 1098). -/
def CUTOFF_YEAR : ℕ := 2020

structure DataPoint where
  value : ℚ
  date : String
  label : String
deriving DecidableEq

/-- `QUARTER_MONTH_MAP` (police.ts lines 1138-1143); a quarter outside 1-4
has no entry (the source throws there, a path its callers guard against). -/
def quarterMonth : ℕ → String
  | 1 => "01"
  | 2 => "04"
  | 3 => "07"
  | 4 => "10"
  | _ => ""

/-- `quarterToIsoDate` (police.ts lines 1145-1152), on the in-range quarters
its callers pass. -/
def quarterToIsoDate (year : ℕ) (q : ℕ) : String :=
  toString year ++ "-" ++ quarterMonth q ++ "-01"

/-- `formatLabel` (police.ts lines 1154-1156): "Q3 2024" style. -/
def formatLabel (year : ℕ) (q : ℕ) : String :=
  "Q" ++ toString q ++ " " ++ toString year

/-- `parseNumericCell` (police.ts lines 1906-1920): null and the sentinels
"", "-", ".." are no-value; numbers pass through; strings are stripped of
`%`, commas and whitespace and `parseFloat`ed. -/
def parseNumericCell : Cell → Option ℚ
  | .null => none
  | .num v => some v
  | .str s =>
    if s == "" || s == "-" || s == ".." then none
    else jsParseFloat (stripPctCommaWs s)

/-- The fraction-vs-percentage scaling both percentage extractors apply
(police.ts lines 1581-1585 and 1884-1888): a value strictly between 0 and 1
is `Math.round(value * 1000) / 10` (taken to be a fraction of one), anything
else is `Math.round(value * 10) / 10` (already a percentage, rounded to one
decimal place). `Math.round` is floor of x + 1/2, Mathlib's `round`. -/
def scaleShareValue (v : ℚ) : ℚ :=
  if 0 < v ∧ v < 1 then (round (v * 1000) : ℚ) / 10
  else (round (v * 10) : ℚ) / 10

/-- `text.replace(/\r\n/g, " ")`: left-to-right, non-overlapping. -/
def replaceCRLF : List Char → List Char
  | '\r' :: '\n' :: r => ' ' :: replaceCRLF r
  | c :: r => c :: replaceCRLF r
  | [] => []

/-- The header cleaning of `parseTransposedColumnHeader` (police.ts line
1620): CRLF then LF to spaces, then trim. -/
def cleanHeader (s : String) : String :=
  trimStr ⟨(replaceCRLF s.data).map (fun c => if c == '\n' then ' ' else c)⟩

/-- Is the two-character sequence an ordinal suffix st/nd/rd/th
(case-insensitive)? -/
def ordinalSuffix (a b : Char) : Bool :=
  (a.toLower == 's' && b.toLower == 't') || (a.toLower == 'n' && b.toLower == 'd') ||
  (a.toLower == 'r' && b.toLower == 'd') || (a.toLower == 't' && b.toLower == 'h')

/-- The regex `(\d{4})\s+(\d)(?:st|nd|rd|th)\s+quarter` (case-insensitive)
attempted at one position. -/
def qtrMatchAt (cs : List Char) : Option (ℕ × ℕ) :=
  let d4 := cs.take 4
  if d4.length = 4 ∧ d4.all Char.isDigit then
    let r1 := cs.drop 4
    if (r1.takeWhile Char.isWhitespace).isEmpty then none
    else
      match r1.dropWhile Char.isWhitespace with
      | q :: s1 :: s2 :: r3 =>
        if q.isDigit ∧ ordinalSuffix s1 s2 then
          if (r3.takeWhile Char.isWhitespace).isEmpty then none
          else if chPre (['q', 'u', 'a', 'r', 't', 'e', 'r'])
              ((r3.dropWhile Char.isWhitespace).map Char.toLower) then
            some (natOfDigits d4, q.toNat - 48)
          else none
        else none
      | _ => none
  else none

/-- First match of the year-quarter pattern, scanning left to right as
`RegExp.prototype.exec` does. -/
def qtrScan : List Char → Option (ℕ × ℕ)
  | [] => none
  | c :: r =>
    match qtrMatchAt (c :: r) with
    | some m => some m
    | none => qtrScan r

def isQ14 (c : Char) : Bool :=
  c == '1' || c == '2' || c == '3' || c == '4'

/-- First alternative of `(?:Q\s*([1-4]))\s+(\d{4})|(\d{4})\s+Q\s*([1-4])`:
Q, optional whitespace, a quarter digit, whitespace, four digits. Returns
(year, quarter). -/
def qAlt1At (cs : List Char) : Option (ℕ × ℕ) :=
  match cs with
  | c :: r =>
    if c.toLower == 'q' then
      match r.dropWhile Char.isWhitespace with
      | d :: r2 =>
        if isQ14 d then
          if (r2.takeWhile Char.isWhitespace).isEmpty then none
          else
            let d4 := (r2.dropWhile Char.isWhitespace).take 4
            if d4.length = 4 ∧ d4.all Char.isDigit then
              some (natOfDigits d4, d.toNat - 48)
            else none
        else none
      | [] => none
    else none
  | [] => none

/-- Second alternative: four digits, whitespace, Q, optional whitespace, a
quarter digit. -/
def qAlt2At (cs : List Char) : Option (ℕ × ℕ) :=
  let d4 := cs.take 4
  if d4.length = 4 ∧ d4.all Char.isDigit then
    let r1 := cs.drop 4
    if (r1.takeWhile Char.isWhitespace).isEmpty then none
    else
      match r1.dropWhile Char.isWhitespace with
      | c :: r2 =>
        if c.toLower == 'q' then
          match r2.dropWhile Char.isWhitespace with
          | d :: _ => if isQ14 d then some (natOfDigits d4, d.toNat - 48) else none
          | [] => none
        else none
      | [] => none
  else none

/-- First match of the Q-pattern alternation, trying alternative 1 then 2 at
each position, as the JS regex engine does. -/
def qAltScan : List Char → Option (ℕ × ℕ)
  | [] => none
  | c :: r =>
    match qAlt1At (c :: r) with
    | some m => some m
    | none =>
      match qAlt2At (c :: r) with
      | some m => some m
      | none => qAltScan r

/-- The regex `^(\d{4})$` on the cleaned header. -/
def yearOnlyMatch (cs : List Char) : Option ℕ :=
  if cs.length = 4 ∧ cs.all Char.isDigit then some (natOfDigits cs) else none

structure DateInfo where
  isoDate : String
  label : String
deriving DecidableEq

/-- `parseTransposedColumnHeader` (police.ts lines 1615-1669): the
year-and-ordinal-quarter pattern with its year/quarter guard, then the
Q-pattern, then a bare year in [1990, 2100]. -/
def parseTransposedColumnHeader (text : String) : Option DateInfo :=
  if text == "" || trimStr text == "" then none
  else
    let cleaned := cleanHeader text
    let fromQtr : Option DateInfo :=
      match qtrScan cleaned.data with
      | some (year, qNum) =>
        if 1 ≤ qNum ∧ qNum ≤ 4 ∧ 1990 ≤ year ∧ year ≤ 2100 then
          some ⟨quarterToIsoDate year qNum, formatLabel year qNum⟩
        else none
      | none => none
    match fromQtr with
    | some di => some di
    | none =>
      match qAltScan cleaned.data with
      | some (year, q) => some ⟨quarterToIsoDate year q, formatLabel year q⟩
      | none =>
        match yearOnlyMatch cleaned.data with
        | some year =>
          if 1990 ≤ year ∧ year ≤ 2100 then
            some ⟨toString year ++ "-01-01", toString year⟩
          else none
        | none => none

/-- `new Date(isoDate).getFullYear()` on the `YYYY-MM-DD` strings this
pipeline builds: the leading digits. -/
def isoYear (s : String) : ℕ :=
  natOfDigits (s.data.takeWhile Char.isDigit)

/-- Step 1 of `extractFromTransposedSheet` (police.ts lines 1517-1530): does
column 0 of the row contain "share" and one of "electric"/"generat"
(lower-cased, no trim)? Holes never match (`if (!row) continue`). -/
def sharesHeaderMatch (r : Row) : Bool :=
  match r with
  | none => false
  | some row =>
    let label := lowerStr (jsCellString (cellAt row 0))
    strContainsB label ("share") &&
      (strContainsB label ("electric") || strContainsB label ("generat"))

/-- The scan for the first shares section-header row, returning that row's
cells and the remaining rows below it. -/
def splitAtSharesHeader : Grid → Option (List Cell × Grid)
  | [] => none
  | r :: rest =>
    match r with
    | some row =>
      if sharesHeaderMatch (some row) then some (row, rest)
      else splitAtSharesHeader rest
    | none => splitAtSharesHeader rest

/-- Step 3's row label test (police.ts lines 1555-1556): lower-cased trimmed
column 0 contains "all renewable" (or equals "all renewables"). -/
def renewRowMatch (row : List Cell) : Bool :=
  let label := trimStr (lowerStr (jsCellString (cellAt row 0)))
  strContainsB label ("all renewable") || label == "all renewables"

/-- Step 3 (police.ts lines 1551-1560): scan at most 19 rows below the header
(`i < Math.min(rows.length, sharesHeaderRowIdx + 20)` starting at
`sharesHeaderRowIdx + 1`), stopping at the first hole (blank row ends the
table section). -/
def findRenewRow : ℕ → Grid → Option (List Cell)
  | 0, _ => none
  | _ + 1, [] => none
  | n + 1, r :: rest =>
    match r with
    | none => none
    | some row => if renewRowMatch row then some row else findRenewRow n rest

/-- Step 2 (police.ts lines 1540-1548): column 0 maps to `null`, every other
header cell through `parseTransposedColumnHeader` on `String(cell ?? "")`. -/
def columnDatesOf (headerRow : List Cell) : List (Option DateInfo) :=
  match headerRow with
  | [] => []
  | _ :: rest => none :: rest.map (fun c => parseTransposedColumnHeader (jsCellString c))

/-- Step 4's per-column loop (police.ts lines 1573-1598), phrased as a
simultaneous walk of the data cells and the parsed column dates from index 1
upward: the loop runs `j` over the data row, skips a cell whose value does
not parse, scales the value, skips a column without a parsed date
(`j < columnDates.length ? columnDates[j] : null`), and applies the cutoff
year. Once either list is exhausted no further point can be produced, which
is exactly where the recursion stops. -/
def transposedZip : List Cell → List (Option DateInfo) → List DataPoint
  | [], _ => []
  | _ :: _, [] => []
  | c :: cs, d? :: ds =>
    match parseNumericCell c with
    | none => transposedZip cs ds
    | some v =>
      let value := scaleShareValue v
      match d? with
      | none => transposedZip cs ds
      | some di =>
        if isoYear di.isoDate < CUTOFF_YEAR then transposedZip cs ds
        else ⟨value, di.isoDate, di.label⟩ :: transposedZip cs ds

/-- `extractFromTransposedSheet` (police.ts lines 1516-1602). -/
def extractFromTransposedSheet (rows : Grid) : List DataPoint :=
  match splitAtSharesHeader rows with
  | none => []
  | some (headerRow, rest) =>
    match findRenewRow 19 rest with
    | none => []
    | some dataRow =>
      transposedZip (dataRow.drop 1) ((columnDatesOf headerRow).drop 1)

/-! ### Police workforce header scan (src/lib/fetchers/police.ts lines 378-482)

The per-row column scan of `tryExtractFromRows`, with the source's `-1`
sentinels kept as integers. -/

structure RowScan where
  dateCol : ℤ
  officerCol : ℤ
  pcsoCol : ℤ
  specialCol : ℤ
  totalCol : ℤ
  relevant : ℕ
deriving DecidableEq

def initScan : RowScan := ⟨-1, -1, -1, -1, -1, 0⟩

/-- One iteration of the `for (let j...)` header-cell loop (police.ts lines
405-467): the cell text is lower-cased and trimmed; empty cells are skipped;
then the date, officer, PCSO, special and total column tests run in order.
The comparison with "pcsOs" is kept although the lower-cased cell can never
equal it, exactly as in the source. -/
def scanStep (st : RowScan) (jc : ℕ × Cell) : RowScan :=
  let j := jc.1
  let cell := trimStr (lowerStr (jsCellString jc.2))
  if cell == "" then st
  else
    let st1 :=
      if cell == "as at" || cell == "as of" || cell == "date" ||
          cell == "period" || cell == "year" then
        { st with dateCol := (j : ℤ) }
      else st
    let st2 :=
      if (strContainsB cell ("officer") || strContainsB cell ("police officer")) &&
          (strContainsB cell ("total") || strContainsB cell ("all")) then
        { st1 with officerCol := (j : ℤ), relevant := st1.relevant + 1 }
      else if cell == "police officers" ||
          (strContainsB cell ("officer") && !strContainsB cell ("pcso") &&
            !strContainsB cell ("special") && !strContainsB cell ("community") &&
            jsLength cell < 40) then
        if st1.officerCol < 0 then
          { st1 with officerCol := (j : ℤ), relevant := st1.relevant + 1 }
        else st1
      else st1
    let st3 :=
      if cell == "pcsos" || cell == "pcsOs" ||
          (strContainsB cell ("community support") && jsLength cell < 60) then
        { st2 with pcsoCol := (j : ℤ), relevant := st2.relevant + 1 }
      else st2
    let st4 :=
      if strContainsB cell ("special") && jsLength cell < 30 then
        { st3 with specialCol := (j : ℤ), relevant := st3.relevant + 1 }
      else st3
    if cell == "total" ||
        (strContainsB cell ("total") && !strContainsB cell ("officer") &&
          !strContainsB cell ("staff") && jsLength cell < 20) then
      { st4 with totalCol := (j : ℤ) }
    else st4

def scanRow (row : List Cell) : RowScan :=
  row.enum.foldl scanStep initScan

/-- `c != null && String(c).trim() !== ""` (police.ts line 395). -/
def isNonEmptyCell : Cell → Bool
  | .null => false
  | c => !(trimStr (jsCellString c) == "")

/-- The header acceptance test (police.ts line 471): at least one relevant
metric header, and a date column or a second metric header. -/
def acceptHeaderScan (sc : RowScan) : Bool :=
  1 ≤ sc.relevant && (0 ≤ sc.dateCol || 2 ≤ sc.relevant)

/-- The header-row search of `tryExtractFromRows` (police.ts lines 389-480):
at most 30 rows, skipping holes and rows with fewer than two non-empty
cells, accepting the first row whose scan passes. -/
def findWorkforceHeader : ℕ → Grid → Option RowScan
  | 0, _ => none
  | _ + 1, [] => none
  | n + 1, none :: rest => findWorkforceHeader n rest
  | n + 1, some row :: rest =>
    if (row.filter isNonEmptyCell).length < 2 then findWorkforceHeader n rest
    else
      let sc := scanRow row
      if acceptHeaderScan sc then some sc else findWorkforceHeader n rest

def workforceHeaderScan (rows : Grid) : Option RowScan :=
  findWorkforceHeader 30 rows

/-! ### Sorting and deduplication at the upsert callers -/

/-- The comparator `(a, b) => a.date.localeCompare(b.date)` on energy data
points; JS `sort` is stable, so the stable `insertionSort` models it. -/
def dpLE (a b : DataPoint) : Prop := strLeP a.date b.date

instance : DecidableRel dpLE := fun a b => by
  unfold dpLE; infer_instance

def sortDataByDate (l : List DataPoint) : List DataPoint :=
  List.insertionSort dpLE l

/-- One `seen.set(dp.date, dp)` step on a JS `Map`, held as its
insertion-ordered association list: an existing key keeps its position and
takes the new value, a new key is appended. -/
def mapSet (m : List (String × DataPoint)) (dp : DataPoint) :
    List (String × DataPoint) :=
  if m.any (fun e => e.1 == dp.date) then
    m.map (fun e => if e.1 == dp.date then (e.1, dp) else e)
  else m ++ [(dp.date, dp)]

/-- The sort-and-deduplicate step of `fetchEnergyTrends` (police.ts lines
2206-2216): sort ascending by date, fold into a `Map` keyed by date (a later
point with the same date overwrites the earlier), then sort the map's values
ascending again. -/
def energyDedup (pts : List DataPoint) : List DataPoint :=
  let sorted := sortDataByDate pts
  let m := sorted.foldl mapSet []
  sortDataByDate (m.map (·.2))

structure WorkforceDataPoint where
  date : String
  label : String
  totalOfficers : ℚ
  totalPCSOs : ℚ
  totalSpecials : ℚ
  combinedTotal : ℚ
deriving DecidableEq

/-- The `seenDates` accumulation of `fetchPoliceWorkforce` (police.ts lines
663-744): a point is pushed only when its date has not been seen, so the
first-encountered point per date is the one kept. -/
def policeDedupAux : List WorkforceDataPoint → List WorkforceDataPoint →
    List String → List WorkforceDataPoint
  | [], acc, _ => acc
  | dp :: rest, acc, seen =>
    if seen.contains dp.date then policeDedupAux rest acc seen
    else policeDedupAux rest (acc ++ [dp]) (seen ++ [dp.date])

def policeDedup (pts : List WorkforceDataPoint) : List WorkforceDataPoint :=
  policeDedupAux pts [] []

def wpLE (a b : WorkforceDataPoint) : Prop := strLeP a.date b.date

instance : DecidableRel wpLE := fun a b => by
  unfold wpLE; infer_instance

/-- The caller-side filter and sort of `fetchPoliceWorkforce` (police.ts
lines 772-776): keep dates at or after "2020-01-01", sort ascending. -/
def policeRecent (pts : List WorkforceDataPoint) : List WorkforceDataPoint :=
  List.insertionSort wpLE (pts.filter (fun dp => strLeb ("2020-01-01") dp.date))

/-! ### Derived notions used by the statements and proofs -/

/-- The numeric value of a digit character. -/
def digitVal (c : Char) : ℕ := c.toNat - 48

/-- Two-digit zero-padded rendering (the last two digits of a four-digit
year, as `String(endYear).slice(2)` produces them). -/
def pad2 (n : ℕ) : String :=
  if n < 10 then "0" ++ toString n else toString n

/-- The action of one housing upsert on the observable columns. -/
def obsUpsert (v : ℚ) (d l : String) (obs : List KpiObsRow) : List KpiObsRow :=
  obs.filter (fun e => !(e.milestoneSlug == "housing" && e.date == d)) ++
    [⟨"housing", v, d, l⟩]

/-- The observable-column action of the whole housing batch. -/
def obsInsertAll (pts : List HousingDataPoint) (obs : List KpiObsRow) :
    List KpiObsRow :=
  pts.foldl (fun o p => obsUpsert p.value p.date p.label o) obs

/-- Does some point of the batch share its `(milestone_slug, date)` key with
the observable row? -/
def touches (pts : List HousingDataPoint) (e : KpiObsRow) : Bool :=
  pts.any (fun p => e.milestoneSlug == "housing" && e.date == p.date)

/-- JS `Map.prototype.get` on the insertion-ordered association list. -/
def dateLookup (m : List (String × DataPoint)) (d : String) : Option DataPoint :=
  (m.find? (fun e => e.1 == d)).map (·.2)

/-- A transposed period column as the statements quantify it: the raw header
text, the date the header parses to, and the numeric cell value. -/
structure TCol where
  hdr : String
  di : DateInfo
  val : ℚ
deriving DecidableEq

/-- The transposed grid a column list together with filler rows describes:
filler rows, the section-header row, intermediate metric rows, the
"All renewables" data row, and anything after it. -/
def transposedGrid (pre : Grid) (title : String) (cols : List TCol)
    (mid : List (List Cell)) (rest : Grid) : Grid :=
  pre ++ (some (Cell.str title :: cols.map (fun c => Cell.str c.hdr)) ::
    (mid.map some ++ (some (Cell.str ("All renewables") ::
      cols.map (fun c => Cell.num c.val)) :: rest)))

/-! ### Concrete inputs for the witnesses and counterexamples -/

/-- The §8 scenario's four period columns: "2024 \r\nNth quarter" headers over
the values 45.2, 46.1, 44.8, 47.0 (the non-integral ones as explicit reduced
fractions so that the embedding evaluates by kernel reduction). -/
def q452 : ℚ := ⟨226, 5, by norm_num, by norm_num⟩

def q461 : ℚ := ⟨461, 10, by norm_num, by norm_num⟩

def q448 : ℚ := ⟨224, 5, by norm_num, by norm_num⟩

def exCols : List TCol :=
  [ ⟨"2024 \r\n1st quarter", ⟨"2024-01-01", "Q1 2024"⟩, q452⟩,
    ⟨"2024 \r\n2nd quarter", ⟨"2024-04-01", "Q2 2024"⟩, q461⟩,
    ⟨"2024 \r\n3rd quarter", ⟨"2024-07-01", "Q3 2024"⟩, q448⟩,
    ⟨"2024 \r\n4th quarter", ⟨"2024-10-01", "Q4 2024"⟩, (47 : ℚ)⟩ ]

/-- The §8 sheet: the section header on row 5, two metric rows between it and
the "All renewables" data row on row 8. -/
def exGridC3 : Grid :=
  transposedGrid [none, none, none, none, none]
    ("SHARES OF ELECTRICITY GENERATED (%)") exCols
    [ [Cell.str ("Onshore wind"), Cell.str ("x"), Cell.str ("x"), Cell.str ("x"), Cell.str ("x")],
      [Cell.str ("Offshore wind"), Cell.str ("x"), Cell.str ("x"), Cell.str ("x"), Cell.str ("x")] ]
    []

/-- The environment of the C2 counterexample: the content API resolves, the
workbook holds one Table 120 sheet with a single financial-year row. -/
def c2env : HousingFetchEnv :=
  { contentApi := some ("u"), searchApi := none, htmlPage := none
    download := fun _ =>
      some [("Table 120", [some [Cell.str ("2022-23"), Cell.num (234000 : ℚ)]])] }

def kpiEmpty : KpiState := ⟨0, []⟩

/-- The net-additional-dwellings cell of the C10 counterexample: the raw
value 0.3 (a number greater than zero that rounds to zero). -/
def q03 : ℚ := ⟨3, 10, by norm_num, by norm_num⟩

/-- The environment of the C10 counterexample: a Table 120 sheet whose
2022-23 figure is 0.3. -/
def c10env : HousingFetchEnv :=
  { contentApi := some ("u"), searchApi := none, htmlPage := none
    download := fun _ =>
      some [("Table 120", [some [Cell.str ("2022-23"), Cell.num q03]])] }

/-- The long title cell of C8: it contains the keywords "officer", "total"
and "all", and is 56 characters long. -/
def c8LongCell : String :=
  "Total police officers in all forces of England and Wales"

def c8CounterGrid : Grid :=
  [some [Cell.str ("Date"), Cell.str c8LongCell]]

/-- The §8 title-row example of C8 (51 characters, its only keyword hit is
"totals"). -/
def c8TitleGrid : Grid :=
  [some [Cell.str ("Date"), Cell.str ("Police workforce totals by force, England and Wales")]]

/-- The genuine short header of C8. -/
def c8HeaderGrid : Grid :=
  [some [Cell.str ("Date"), Cell.str ("Police officers")]]

/-- Two police workforce points sharing a date (a figure and its revision). -/
def wdp1 : WorkforceDataPoint := ⟨"2024-03-31", "Mar 2024", 100, 0, 0, 100⟩

def wdp2 : WorkforceDataPoint := ⟨"2024-03-31", "Mar 2024 (revised)", 100, 0, 0, 100⟩

/-! ## Theorems -/

/-- Replacing by key removes every row of the key and appends the new row. -/
lemma kpiInsertOrReplace_filter_key (st : KpiState) (m d l : String) (v : ℚ)
    (t : ℕ) :
    (kpiInsertOrReplace m v d l t st).rows.filter (kpiKeyMatches m d) =
      [⟨st.seq + 1, m, v, d, l, t⟩] := by
  simp only [kpiInsertOrReplace, List.filter_append, List.filter_filter]
  rw [List.filter_eq_nil_iff.mpr, List.nil_append]
  · simp [List.filter, kpiKeyMatches]
  · intro a _
    simp

/-- C1. For every milestone slug and date, after two successive upserts for
the same `(milestoneSlug, date)` key with values `v1` then `v2`, the
`kpi_snapshots` store holds exactly one row for that key and its value is
`v2`: last write wins (housing.ts lines 632-645 over db.ts lines 21-29). -/
theorem C1_kpi_last_write_wins (st : KpiState) (m d l1 l2 : String)
    (v1 v2 : ℚ) (t1 t2 : ℕ) :
    ((kpiInsertOrReplace m v2 d l2 t2 (kpiInsertOrReplace m v1 d l1 t1 st)).rows.filter
      (kpiKeyMatches m d)).map KpiRow.value = [v2] := by
  rw [kpiInsertOrReplace_filter_key]
  rfl

/-- C4. The `INSERT OR REPLACE` upserts into `outputs` replace the whole row
for the natural id and hard-code `dismissed = 0`: whatever rows (dismissed or
not) the table held under that id, afterwards exactly the freshly built row
is there, its `dismissed` is false and every other column comes from the new
record (part_002 lines 162-201 and 363-369). -/
theorem C4_outputs_replace_resets_dismissed (tbl : List OutputRow)
    (id slug otype title desc url pub dept conf : String) (t : ℕ)
    (billId : ℕ) (bslug btitle bstatus bupd : String) (bt : ℕ) :
    ((outputsInsertOrReplace (govukOutputRow id slug otype title desc url pub dept conf t) tbl).filter
        (fun r => r.id == id) =
      [govukOutputRow id slug otype title desc url pub dept conf t] ∧
      (govukOutputRow id slug otype title desc url pub dept conf t).dismissed = false) ∧
    ((outputsInsertOrReplace (billOutputRow billId bslug btitle bstatus bupd bt) tbl).filter
        (fun r => r.id == "bill-" ++ toString billId) =
      [billOutputRow billId bslug btitle bstatus bupd bt] ∧
      (billOutputRow billId bslug btitle bstatus bupd bt).dismissed = false) := by
  refine ⟨⟨?_, rfl⟩, ⟨?_, rfl⟩⟩ <;>
  · simp only [outputsInsertOrReplace, List.filter_append, List.filter_filter]
    rw [List.filter_eq_nil_iff.mpr, List.nil_append]
    · simp [List.filter, govukOutputRow, billOutputRow]
    · intro a _
      simp [govukOutputRow, billOutputRow]

/-- C5. The fraction-vs-percentage scaling: a raw value strictly between 0
and 1 is stored as `v * 100` rounded to one decimal place; a value at least 1
is stored as `v` rounded to one decimal place (not rescaled); the boundary
input exactly 1 is treated as a percentage; `0.652 ↦ 65.2` and
`65.2 ↦ 65.2` (police.ts lines 1581-1585 and 1884-1888). -/
theorem C5_fraction_percentage_boundary :
    (∀ v : ℚ, 0 < v → v < 1 → scaleShareValue v = (round (v * 100 * 10) : ℚ) / 10) ∧
    (∀ v : ℚ, 1 ≤ v → scaleShareValue v = (round (v * 10) : ℚ) / 10) ∧
    scaleShareValue 1 = 1 ∧
    scaleShareValue (652 / 1000) = 652 / 10 ∧
    scaleShareValue (652 / 10) = 652 / 10 := by
  refine ⟨?_, ?_, ?_, ?_, ?_⟩
  · intro v h0 h1
    rw [scaleShareValue, if_pos ⟨h0, h1⟩]
    ring_nf
  · intro v h1
    rw [scaleShareValue, if_neg]
    rintro ⟨-, hlt⟩
    exact absurd h1 (not_le.mpr hlt)
  · norm_num [scaleShareValue, round_eq]
  · norm_num [scaleShareValue, round_eq]
  · norm_num [scaleShareValue, round_eq]

/-- Closed consequence of C5 at the boundary inputs, obtained by applying the
theorem at 0.652, 65.2 and 1. -/
theorem C5_fraction_percentage_boundary_witness :
    scaleShareValue (652 / 1000) = (round ((652 / 1000 : ℚ) * 100 * 10) : ℚ) / 10 ∧
    scaleShareValue (652 / 10) = (round ((652 / 10 : ℚ) * 10) : ℚ) / 10 ∧
    scaleShareValue 1 = (round ((1 : ℚ) * 10) : ℚ) / 10 :=
  ⟨C5_fraction_percentage_boundary.1 _ (by norm_num) (by norm_num),
   C5_fraction_percentage_boundary.2.1 _ (by norm_num),
   C5_fraction_percentage_boundary.2.1 _ (by norm_num)⟩

/-- C7. If the content-API and search-API strategies both yield no URL, the
HTML-scrape strategy is invoked; and if all three yield nothing, the housing
fetch returns normally with the store unchanged — zero records, no failure
surfacing to the caller (housing.ts lines 572-604). -/
theorem C7_discovery_fallback_chain (r3 : Option String)
    (dl : String → Option Workbook) (t : ℕ) (st : KpiState) :
    (discoverChain none none r3).2 = true ∧
    fetchHousingSupplyModel ⟨none, none, none, dl⟩ t st = st :=
  ⟨rfl, rfl⟩

/-- Counterexample to C8 as stated: the 56-character cell
"Total police officers in all forces of England and Wales" exceeds every
length ceiling of the scan, yet it is selected as the officer value column,
because the branch matching "officer" together with "total"/"all" applies no
ceiling (police.ts lines 421-426). -/
theorem C8_long_cell_selected_counterexample :
    workforceHeaderScan c8CounterGrid = some ⟨0, 1, -1, -1, -1, 1⟩ ∧
    40 < jsLength c8LongCell := by
  exact ⟨by decide, by decide⟩

/-- C8 (amended). The length ceilings govern the single-keyword branches: the
title cell "Police workforce totals by force, England and Wales" (length 51,
keyword hit "totals") is rejected by the 20-character ceiling of the total
column and selected as nothing, so the row yields no header; the short cell
"Police officers" is selected as the officer column. A cell containing an
officer keyword plus "total"/"all" is, however, selected without any
ceiling. -/
theorem C8_header_scan_keyword_and_ceiling :
    workforceHeaderScan c8TitleGrid = none ∧
    workforceHeaderScan c8HeaderGrid = some ⟨0, 1, -1, -1, -1, 1⟩ := by
  exact ⟨by decide, by decide⟩

/-- Counterexample to C9 as stated: the police workforce caller's `seenDates`
deduplication keeps the FIRST point seen for a date, so a later-occurring
point for the same date does not override the earlier one (police.ts lines
736-741). -/
theorem C9_police_dedup_keeps_first_counterexample :
    policeDedup [wdp1, wdp2] = [wdp1] ∧ wdp1 ≠ wdp2 := by
  refine ⟨rfl, fun h => ?_⟩
  have h2 := congrArg WorkforceDataPoint.label h
  exact absurd h2 (by decide)

/-- Counterexample to C2 as stated: running the identical extraction and
upsert twice leaves different stored states, because the `INSERT OR REPLACE`
deletes and re-inserts the row, assigning a fresh `AUTOINCREMENT` id (and a
fresh `fetched_at`): the single row's id is 1 after the first run and 2 after
the second. -/
theorem C2_rerun_changes_state_counterexample :
    fetchHousingSupplyModel c2env 0 (fetchHousingSupplyModel c2env 0 kpiEmpty) ≠
      fetchHousingSupplyModel c2env 0 kpiEmpty ∧
    (fetchHousingSupplyModel c2env 0 kpiEmpty).rows.map KpiRow.id = [1] ∧
    (fetchHousingSupplyModel c2env 0 (fetchHousingSupplyModel c2env 0 kpiEmpty)).rows.map
      KpiRow.id = [2] := by
  have e1 : (fetchHousingSupplyModel c2env 0 kpiEmpty).rows.map KpiRow.id = [1] := by rfl
  have e2 : (fetchHousingSupplyModel c2env 0 (fetchHousingSupplyModel c2env 0 kpiEmpty)).rows.map
      KpiRow.id = [2] := by rfl
  refine ⟨fun h => ?_, e1, e2⟩
  have h2 := congrArg (fun s => s.rows.map KpiRow.id) h
  simp only [] at h2
  rw [e1, e2] at h2
  simp at h2

lemma digit_not_ws {c : Char} (h : c.isDigit = true) : c.isWhitespace = false := by
  simp only [Char.isDigit] at h
  simp only [Char.isWhitespace]
  obtain ⟨h1, h2⟩ := Bool.and_eq_true_iff.mp h
  simp only [decide_eq_true_eq] at h1 h2
  have : c ≠ ' ' ∧ c ≠ '\t' ∧ c ≠ '\r' ∧ c ≠ '\n' := by
    refine ⟨?_, ?_, ?_, ?_⟩ <;> rintro rfl <;> simp_all
  simp [this.1, this.2.1, this.2.2.1, this.2.2.2]

lemma digit_bounds {c : Char} (h : c.isDigit = true) : 48 ≤ c.toNat ∧ c.toNat ≤ 57 := by
  simp only [Char.isDigit] at h
  obtain ⟨h1, h2⟩ := Bool.and_eq_true_iff.mp h
  simp only [decide_eq_true_eq] at h1 h2
  exact ⟨h1, h2⟩

lemma digit_ne_dash {c : Char} (h : c.isDigit = true) : (c = '-' ∨ c = '/') = False := by
  simp only [Char.isDigit] at h
  obtain ⟨h1, h2⟩ := Bool.and_eq_true_iff.mp h
  simp only [decide_eq_true_eq] at h1 h2
  simp only [eq_iff_iff, iff_false]
  rintro (rfl | rfl) <;> simp_all

set_option maxHeartbeats 2000000 in
/-- C6. Financial-year normalization: for every string of the form "YYYY-YY"
or "YYYY/YY" the parser returns `century(startYear) + YY`; for "YYYY-YYYY" it
returns the full second year; the canonical label rebuilt from an end year
`e` in the 2000s is always `(e-1)-` followed by the two-digit remainder, with
a hyphen; and the three example inputs all give end year 2023 with canonical
label "2022-23" (housing.ts lines 326-350). -/
theorem C6_financial_year_normalization :
    (∀ a b c d e f : Char, a.isDigit = true → b.isDigit = true →
      c.isDigit = true → d.isDigit = true → e.isDigit = true → f.isDigit = true →
      ∀ sep : Char, sep = '-' ∨ sep = '/' →
      parseFinancialYear ⟨[a, b, c, d, sep, e, f]⟩ =
        some (100 * (10 * digitVal a + digitVal b) + (10 * digitVal e + digitVal f))) ∧
    (∀ a b c d e f g h : Char, a.isDigit = true → b.isDigit = true →
      c.isDigit = true → d.isDigit = true → e.isDigit = true → f.isDigit = true →
      g.isDigit = true → h.isDigit = true →
      parseFinancialYear ⟨[a, b, c, d, '-', e, f, g, h]⟩ =
        some (1000 * digitVal e + 100 * digitVal f + 10 * digitVal g + digitVal h)) ∧
    (∀ r : ℕ, r < 100 → normaliseLabel (2000 + r) = toString (1999 + r) ++ "-" ++ pad2 r) ∧
    parseFinancialYear ("2022-23") = some 2023 ∧
    parseFinancialYear ("2022/23") = some 2023 ∧
    parseFinancialYear ("2022-2023") = some 2023 ∧
    normaliseLabel 2023 = "2022-23" := by
  refine ⟨?_, ?_, by decide, by decide, by decide, by decide, by decide⟩
  · intro a b c d e f ha hb hc hd he hf sep hsep
    have hwe := digit_not_ws he
    have hwf := digit_not_ws hf
    rcases hsep with rfl | rfl <;>
    · simp only [parseFinancialYear, fyScan, fyMatchAt, List.take, List.drop,
        List.dropWhile_cons, List.dropWhile_nil, List.takeWhile_cons, List.takeWhile_nil,
        List.all_cons, List.all_nil, ha, hb, hc, hd, he, hf, hwe, hwf,
        digit_ne_dash ha, digit_ne_dash hb, digit_ne_dash hc, digit_ne_dash hd,
        digit_ne_dash he, digit_ne_dash hf,
        show ('-').isWhitespace = false from rfl, show ('-').isDigit = false from rfl,
        show ('/').isWhitespace = false from rfl, show ('/').isDigit = false from rfl,
        Bool.and_self, Bool.and_true, Bool.true_and, Bool.false_and, Bool.and_false,
        and_self, and_true, true_and, if_true, if_false,
        List.length_cons, List.length_nil, natOfDigits, List.foldl]
      simp only [List.dropWhile_cons, List.takeWhile_cons, List.takeWhile_nil, hwe, hwf,
        he, hf, Bool.false_eq_true, if_false, if_true, List.take, List.length_cons,
        List.length_nil]
      norm_num
      obtain ⟨h1, h1b⟩ := digit_bounds ha
      obtain ⟨h2, h2b⟩ := digit_bounds hb
      obtain ⟨h3, h3b⟩ := digit_bounds hc
      obtain ⟨h4, h4b⟩ := digit_bounds hd
      simp only [digitVal]
      omega
  · intro a b c d e f g h ha hb hc hd he hf hg hh
    have hwe := digit_not_ws he
    have hwf := digit_not_ws hf
    have hwg := digit_not_ws hg
    have hwh := digit_not_ws hh
    simp only [parseFinancialYear, fyScan, fyMatchAt, List.take, List.drop,
      List.dropWhile_cons, List.dropWhile_nil, List.takeWhile_cons, List.takeWhile_nil,
      List.all_cons, List.all_nil, ha, hb, hc, hd, he, hf, hg, hh, hwe, hwf, hwg, hwh,
      digit_ne_dash ha, digit_ne_dash hb, digit_ne_dash hc, digit_ne_dash hd,
      digit_ne_dash he, digit_ne_dash hf, digit_ne_dash hg, digit_ne_dash hh,
      show ('-').isWhitespace = false from rfl, show ('-').isDigit = false from rfl,
      Bool.and_self, Bool.and_true, Bool.true_and, Bool.false_and, Bool.and_false,
      and_self, and_true, true_and, if_true, if_false,
      List.length_cons, List.length_nil, natOfDigits, List.foldl]
    simp only [List.dropWhile_cons, List.takeWhile_cons, List.takeWhile_nil, hwe, hwf,
      hwg, hwh, he, hf, hg, hh, Bool.false_eq_true, if_false, if_true, List.take,
      List.length_cons, List.length_nil]
    norm_num
    simp only [digitVal]
    omega

/-- Closed consequence of C6, applying the theorem at the digits of
"2022-23", "2022/23" and "2022-2023". -/
theorem C6_financial_year_normalization_witness :
    parseFinancialYear ⟨['2', '0', '2', '2', '-', '2', '3']⟩ =
      some (100 * (10 * digitVal '2' + digitVal '0') + (10 * digitVal '2' + digitVal '3')) ∧
    parseFinancialYear ⟨['2', '0', '2', '2', '/', '2', '3']⟩ =
      some (100 * (10 * digitVal '2' + digitVal '0') + (10 * digitVal '2' + digitVal '3')) ∧
    parseFinancialYear ⟨['2', '0', '2', '2', '-', '2', '0', '2', '3']⟩ =
      some (1000 * digitVal '2' + 100 * digitVal '0' + 10 * digitVal '2' + digitVal '3') ∧
    normaliseLabel (2000 + 23) = toString (1999 + 23) ++ "-" ++ pad2 23 :=
  ⟨C6_financial_year_normalization.1 '2' '0' '2' '2' '2' '3' (by decide) (by decide)
      (by decide) (by decide) (by decide) (by decide) '-' (Or.inl rfl),
   C6_financial_year_normalization.1 '2' '0' '2' '2' '2' '3' (by decide) (by decide)
      (by decide) (by decide) (by decide) (by decide) '/' (Or.inr rfl),
   C6_financial_year_normalization.2.1 '2' '0' '2' '2' '2' '0' '2' '3' (by decide)
      (by decide) (by decide) (by decide) (by decide) (by decide) (by decide) (by decide),
   C6_financial_year_normalization.2.2.1 23 (by decide)⟩

/-- Mapping to observable columns commutes with key-filtering. -/
lemma map_filter_key (slug d : String) (rows : List KpiRow) :
    (rows.filter (fun r => !kpiKeyMatches slug d r)).map kpiObsRow =
      (rows.map kpiObsRow).filter (fun e => !(e.milestoneSlug == slug && e.date == d)) := by
  induction rows with
  | nil => rfl
  | cons r rows ih =>
    have hk : ((kpiObsRow r).milestoneSlug == slug && (kpiObsRow r).date == d) =
        kpiKeyMatches slug d r := rfl
    cases hb : kpiKeyMatches slug d r with
    | false =>
      simp only [List.filter_cons, List.map_cons, hk, hb, Bool.not_false, if_true,
        Bool.false_eq_true, if_false, ih]
    | true =>
      simp only [List.filter_cons, List.map_cons, hk, hb, Bool.not_true, if_false,
        Bool.false_eq_true, ih]

lemma kpiObserve_insertOrReplace (slug : String) (v : ℚ) (d l : String) (t : ℕ)
    (st : KpiState) :
    kpiObserve (kpiInsertOrReplace slug v d l t st) =
      (kpiObserve st).filter (fun e => !(e.milestoneSlug == slug && e.date == d)) ++
        [⟨slug, v, d, l⟩] := by
  simp only [kpiObserve, kpiInsertOrReplace, List.map_append, List.map_cons, List.map_nil]
  rw [map_filter_key]
  rfl

lemma kpiObserve_insertAllHousing (pts : List HousingDataPoint) (t : ℕ) (st : KpiState) :
    kpiObserve (kpiInsertAllHousing pts t st) = obsInsertAll pts (kpiObserve st) := by
  induction pts generalizing st with
  | nil => rfl
  | cons p pts ih =>
    simp only [kpiInsertAllHousing, List.foldl_cons, obsInsertAll]
    rw [show pts.foldl (fun s q => kpiInsertOrReplace ("housing") q.value q.date q.label t s)
        (kpiInsertOrReplace ("housing") p.value p.date p.label t st) =
      kpiInsertAllHousing pts t (kpiInsertOrReplace ("housing") p.value p.date p.label t st)
      from rfl]
    rw [ih, kpiObserve_insertOrReplace]
    rfl

lemma touches_cons (p : HousingDataPoint) (pts : List HousingDataPoint) (e : KpiObsRow) :
    touches (p :: pts) e =
      ((e.milestoneSlug == "housing" && e.date == p.date) || touches pts e) := by
  simp [touches, List.any_cons]

/-- One batch rewrites the store into its untouched part followed by a block
that depends only on the batch. -/
lemma obsInsertAll_shape (pts : List HousingDataPoint) (obs : List KpiObsRow) :
    obsInsertAll pts obs = obs.filter (fun e => !touches pts e) ++ obsInsertAll pts [] := by
  induction pts generalizing obs with
  | nil => simp [obsInsertAll, touches]
  | cons p pts ih =>
    have step : ∀ o, obsInsertAll (p :: pts) o =
        obsInsertAll pts (obsUpsert p.value p.date p.label o) := fun o => rfl
    rw [step, step, ih, ih (obsUpsert p.value p.date p.label [])]
    simp only [obsUpsert, List.filter_append, List.filter_filter, List.filter_nil,
      List.nil_append]
    rw [List.append_assoc]
    congr 1
    apply List.filter_congr
    intro e he
    simp only [touches_cons, Bool.not_or]
    rw [Bool.and_comm]

lemma obsInsertAll_mem (pts : List HousingDataPoint) (obs : List KpiObsRow)
    (e : KpiObsRow) (hmem : e ∈ obsInsertAll pts obs) :
    e ∈ obs ∨ touches pts e = true := by
  induction pts generalizing obs with
  | nil => exact Or.inl hmem
  | cons p pts ih =>
    have step : obsInsertAll (p :: pts) obs =
        obsInsertAll pts (obsUpsert p.value p.date p.label obs) := rfl
    rw [step] at hmem
    rcases ih _ hmem with h | h
    · simp only [obsUpsert, List.mem_append, List.mem_filter, List.mem_singleton] at h
      rcases h with ⟨h1, -⟩ | rfl
      · exact Or.inl h1
      · right
        simp [touches_cons]
    · right
      simp [touches_cons, h]

/-- Applying the same batch twice is the same as applying it once, on the
observable columns. -/
lemma obsInsertAll_idem (pts : List HousingDataPoint) (obs : List KpiObsRow) :
    obsInsertAll pts (obsInsertAll pts obs) = obsInsertAll pts obs := by
  conv_lhs => rw [obsInsertAll_shape]
  conv_rhs => rw [obsInsertAll_shape]
  congr 1
  rw [obsInsertAll_shape, List.filter_append, List.filter_filter]
  have h1 : (obsInsertAll pts []).filter (fun e => !touches pts e) = [] := by
    rw [List.filter_eq_nil_iff]
    intro e he
    have := obsInsertAll_mem pts [] e he
    simp only [List.not_mem_nil, false_or] at this
    simp [this]
  rw [h1, List.append_nil]
  apply List.filter_congr
  intro e he
  cases h : touches pts e <;> simp [h]

lemma kpiKeys_insertOrReplace_nodup (slug : String) (v : ℚ) (d l : String) (t : ℕ)
    (st : KpiState) (h : (kpiKeys st).Nodup) :
    (kpiKeys (kpiInsertOrReplace slug v d l t st)).Nodup := by
  simp only [kpiKeys, kpiInsertOrReplace, List.map_append, List.map_cons, List.map_nil]
  rw [List.nodup_append]
  refine ⟨?_, List.nodup_singleton _, ?_⟩
  · exact ((List.filter_sublist st.rows).map _).nodup h
  · intro x hx
    simp only [List.mem_map, List.mem_filter] at hx
    obtain ⟨r, ⟨-, hr⟩, rfl⟩ := hx
    simp only [kpiKeyMatches, Bool.not_eq_true', Bool.and_eq_false_iff,
      beq_eq_false_iff_ne, ne_eq] at hr
    simp only [List.mem_singleton, Prod.mk.injEq, not_and]
    intro h1
    rcases hr with hr | hr
    · exact absurd h1.1 hr
    · exact absurd h1.2 hr

lemma kpiKeys_insertAllHousing_nodup (pts : List HousingDataPoint) (t : ℕ)
    (st : KpiState) (h : (kpiKeys st).Nodup) :
    (kpiKeys (kpiInsertAllHousing pts t st)).Nodup := by
  induction pts generalizing st with
  | nil => exact h
  | cons p pts ih =>
    exact ih _ (kpiKeys_insertOrReplace_nodup _ _ _ _ _ _ h)

/-- A run of the housing fetch either leaves every store unchanged or applies
the batch of the environment's points, the choice depending only on the
environment. -/
lemma fetchHousing_branch (env : HousingFetchEnv) :
    (∀ t s, fetchHousingSupplyModel env t s = s) ∨
    (∀ t s, fetchHousingSupplyModel env t s =
      kpiInsertAllHousing (sortHousingByDate (housingPoints env)) t s) := by
  cases h : housingPoints env with
  | nil =>
    left
    intro t s
    rw [fetchHousingSupplyModel, h]
  | cons p ps =>
    right
    intro t s
    rw [fetchHousingSupplyModel, h]

/-- The points of a run are empty or exactly one sheet's extraction. -/
lemma housingPoints_cases (env : HousingFetchEnv) :
    housingPoints env = [] ∨ ∃ rows, housingPoints env = extractHousingData rows := by
  unfold housingPoints
  split
  · exact Or.inl rfl
  · split
    · exact Or.inl rfl
    · split
      · exact Or.inl rfl
      · exact Or.inr ⟨_, rfl⟩

/-- C2 (amended). Running the identical extraction and upsert twice yields a
store identical in the observable columns (milestone_slug, value, date,
label) — no duplicate rows, no changed observable values — while the
surrogate `AUTOINCREMENT` id and `fetched_at` are reassigned by the REPLACE
(the second conjunct: key uniqueness is preserved across both runs). -/
theorem C2_idempotence_up_to_surrogates (env : HousingFetchEnv) (t1 t2 : ℕ)
    (st : KpiState) :
    kpiObserve (fetchHousingSupplyModel env t2 (fetchHousingSupplyModel env t1 st)) =
      kpiObserve (fetchHousingSupplyModel env t1 st) ∧
    ((kpiKeys st).Nodup →
      (kpiKeys (fetchHousingSupplyModel env t2 (fetchHousingSupplyModel env t1 st))).Nodup) := by
  rcases fetchHousing_branch env with h | h
  · simp only [h]
    exact ⟨trivial, fun hn => hn⟩
  · simp only [h]
    constructor
    · rw [kpiObserve_insertAllHousing, kpiObserve_insertAllHousing, obsInsertAll_idem]
    · intro hn
      exact kpiKeys_insertAllHousing_nodup _ _ _ (kpiKeys_insertAllHousing_nodup _ _ _ hn)

lemma acceptPositive_pos {c : Cell} {v : ℚ} (h : acceptPositive c = some v) : 0 < v := by
  cases c with
  | num q =>
    simp only [acceptPositive] at h
    split at h
    · cases h
      assumption
    · cases h
  | str s =>
    simp only [acceptPositive] at h
    split at h
    · split at h
      · cases h
        assumption
      · cases h
    · cases h
  | null => cases h

lemma acceptOver1000_pos {c : Cell} {v : ℚ} (h : acceptOver1000 c = some v) : 0 < v := by
  cases c with
  | num q =>
    simp only [acceptOver1000] at h
    split at h
    · cases h
      linarith
    · cases h
  | str s =>
    simp only [acceptOver1000] at h
    split at h
    · split at h
      · cases h
        linarith
      · cases h
    · cases h
  | null => cases h

/-- A positive rational rounds to a nonnegative integer. -/
lemma round_pos_natCast {v : ℚ} (h : 0 < v) : ∃ n : ℕ, (round v : ℚ) = (n : ℚ) := by
  refine ⟨(round v).toNat, ?_⟩
  have h0 : (0 : ℤ) ≤ round v := by
    rw [round_eq]
    apply Int.floor_nonneg.mpr
    linarith
  have h1 := Int.toNat_of_nonneg h0
  exact_mod_cast h1.symm

lemma mem_extractColumnRows {j : ℕ} {rows : Grid} {p : HousingDataPoint}
    (h : p ∈ extractColumnRows j rows) : ∃ n : ℕ, p.value = (n : ℚ) := by
  induction rows with
  | nil => cases h
  | cons r rest ih =>
    cases r with
    | none => exact ih h
    | some row =>
      simp only [extractColumnRows] at h
      split at h
      · exact ih h
      · split at h
        · exact ih h
        · split at h
          · exact ih h
          · rename_i v hv
            rcases List.mem_cons.mp h with rfl | hmem
            · have hpos : 0 < v := by
                split at hv
                · rename_i hacc
                  cases hv
                  exact acceptPositive_pos hacc
                · obtain ⟨-, c, -, -, hc, -⟩ := List.findSome?_eq_some_iff.mp hv
                  exact acceptOver1000_pos hc
              exact round_pos_natCast hpos
            · exact ih hmem

lemma mem_extractRowValues {row : List Cell} {yc : List (ℕ × ℕ)}
    {p : HousingDataPoint} (h : p ∈ extractRowValues row yc) :
    ∃ n : ℕ, p.value = (n : ℚ) := by
  induction yc with
  | nil => cases h
  | cons ce yc ih =>
    obtain ⟨colIdx, endYear⟩ := ce
    simp only [extractRowValues] at h
    split at h
    · exact ih h
    · split at h
      · exact ih h
      · rename_i v hv
        rcases List.mem_cons.mp h with rfl | hmem
        · exact round_pos_natCast (acceptPositive_pos hv)
        · exact ih hmem

lemma mem_extractRowOriented {rows : Grid} {p : HousingDataPoint}
    (h : p ∈ extractRowOriented rows) : ∃ n : ℕ, p.value = (n : ℚ) := by
  rw [extractRowOriented] at h
  split at h
  · cases h
  · split at h
    · cases h
    · exact mem_extractRowValues h

lemma mem_extractColumnOriented {rows : Grid} {p : HousingDataPoint}
    (h : p ∈ extractColumnOriented rows) : ∃ n : ℕ, p.value = (n : ℚ) := by
  rw [extractColumnOriented] at h
  split at h
  · exact mem_extractColumnRows h
  · exact mem_extractColumnRows h

lemma mem_extractHousingData {rows : Grid} {p : HousingDataPoint}
    (h : p ∈ extractHousingData rows) : ∃ n : ℕ, p.value = (n : ℚ) := by
  cases hE : extractRowOriented rows with
  | nil =>
    have h2 : p ∈ extractColumnOriented rows := by
      rw [extractHousingData, hE] at h
      exact h
    exact mem_extractColumnOriented h2
  | cons q qs =>
    have h2 : p ∈ extractRowOriented rows := by
      rw [extractHousingData, hE] at h
      rw [hE]
      exact h
    exact mem_extractRowOriented h2

lemma mem_kpiInsertAllHousing_rows {pts : List HousingDataPoint} {t : ℕ}
    {st : KpiState} {r : KpiRow} (h : r ∈ (kpiInsertAllHousing pts t st).rows) :
    r ∈ st.rows ∨ r.value ∈ pts.map HousingDataPoint.value := by
  induction pts generalizing st with
  | nil => exact Or.inl h
  | cons p pts ih =>
    have step : kpiInsertAllHousing (p :: pts) t st =
        kpiInsertAllHousing pts t (kpiInsertOrReplace ("housing") p.value p.date p.label t st) :=
      rfl
    rw [step] at h
    rcases ih h with h1 | h1
    · simp only [kpiInsertOrReplace, List.mem_append, List.mem_filter,
        List.mem_singleton] at h1
      rcases h1 with ⟨h1, -⟩ | rfl
      · exact Or.inl h1
      · right
        simp
    · right
      simp only [List.map_cons, List.mem_cons]
      exact Or.inr h1

/-- C10 (amended). Every KPI row the housing fetcher adds to the store has a
nonnegative integer value: both extraction strategies accept a cell only when
it parses to a number greater than 0 (greater than 1000 on the positional
fallback) and round it to the nearest integer — but a raw value below one
half rounds to 0, so the stored value is nonnegative rather than strictly
positive. -/
theorem C10_stored_values_nonneg_integers :
    (∀ (env : HousingFetchEnv) (t : ℕ) (st : KpiState) (r : KpiRow),
      r ∈ (fetchHousingSupplyModel env t st).rows →
        r ∈ st.rows ∨ ∃ n : ℕ, r.value = (n : ℚ)) ∧
    (∀ (rows : Grid) (p : HousingDataPoint),
      p ∈ extractHousingData rows → ∃ n : ℕ, p.value = (n : ℚ)) := by
  constructor
  · intro env t st r h
    rcases fetchHousing_branch env with hb | hb
    · rw [hb] at h
      exact Or.inl h
    · rw [hb] at h
      rcases mem_kpiInsertAllHousing_rows h with h1 | h1
      · exact Or.inl h1
      · right
        simp only [List.mem_map] at h1
        obtain ⟨p, hp, hval⟩ := h1
        have hp2 : p ∈ housingPoints env :=
          ((List.perm_insertionSort hdpLE (housingPoints env)).mem_iff).mp hp
        rcases housingPoints_cases env with hc | ⟨rows, hc⟩
        · rw [hc] at hp2
          cases hp2
        · rw [hc] at hp2
          obtain ⟨n, hn⟩ := mem_extractHousingData hp2
          exact ⟨n, hval ▸ hn⟩
  · exact fun rows p h => mem_extractHousingData h

/-- Counterexample to C10 as stated: a reporting period whose raw cell value
is 0.3 is accepted (it is greater than zero) and stored after rounding as the
value 0, which is not strictly positive. -/
theorem C10_zero_value_stored_counterexample :
    (fetchHousingSupplyModel c10env 0 kpiEmpty).rows.map KpiRow.value = [0] := by
  have h : (fetchHousingSupplyModel c10env 0 kpiEmpty).rows.map KpiRow.value =
      [(round q03 : ℚ)] := by rfl
  have hq : q03 = 3 / 10 := by
    rw [← Rat.num_div_den q03, show q03.num = 3 from rfl, show q03.den = 10 from rfl]
    norm_num
  rw [h, hq]
  norm_num [round_eq]

lemma chCmp_self : ∀ l : List Char, chCmp l l = .eq
  | [] => rfl
  | c :: l => by simp [chCmp, chCmp_self l]

lemma strLeb_refl (a : String) : strLeb a a = true := by
  simp [strLeb, chCmp_self]

lemma chCmp_swap : ∀ a b : List Char, chCmp b a = (chCmp a b).swap := by
  intro a
  induction a with
  | nil => intro b; cases b <;> rfl
  | cons x xs ih =>
    intro b
    cases b with
    | nil => rfl
    | cons y ys =>
      simp only [chCmp]
      rcases lt_trichotomy x.toNat y.toNat with h | h | h
      · have h1 : (y.toNat < x.toNat) = False := by simp; omega
        have h2 : (x.toNat < y.toNat) = True := by simp [h]
        simp only [h1, h2, if_true, if_false]
        rfl
      · have h1 : (y.toNat < x.toNat) = False := by simp; omega
        have h2 : (x.toNat < y.toNat) = False := by simp; omega
        simp only [h1, h2, if_false]
        exact ih ys
      · have h1 : (y.toNat < x.toNat) = True := by simp [h]
        have h2 : (x.toNat < y.toNat) = False := by simp; omega
        simp only [h1, h2, if_true, if_false]
        rfl

lemma chCmp_trans_le : ∀ a b c : List Char,
    chCmp a b ≠ .gt → chCmp b c ≠ .gt → chCmp a c ≠ .gt := by
  intro a
  induction a with
  | nil =>
    intro b c h1 h2
    cases c <;> simp [chCmp]
  | cons x xs ih =>
    intro b c h1 h2
    cases b with
    | nil => simp [chCmp] at h1
    | cons y ys =>
      cases c with
      | nil => simp [chCmp] at h2
      | cons z zs =>
        simp only [chCmp] at h1 h2 ⊢
        rcases lt_trichotomy x.toNat y.toNat with hxy | hxy | hxy <;>
          rcases lt_trichotomy y.toNat z.toNat with hyz | hyz | hyz
        all_goals first
          | (rw [if_pos (by omega)]; simp)
          | (exfalso; rw [if_neg (by omega), if_pos (by omega)] at h1; exact h1 rfl)
          | (exfalso; rw [if_neg (by omega), if_pos (by omega)] at h2; exact h2 rfl)
          | (rw [if_neg (by omega), if_neg (by omega)]
             rw [if_neg (by omega), if_neg (by omega)] at h1 h2
             exact ih ys zs h1 h2)

lemma strLeb_trans {a b c : String} (h1 : strLeb a b = true) (h2 : strLeb b c = true) :
    strLeb a c = true := by
  simp only [strLeb] at h1 h2 ⊢
  have g1 : chCmp a.data b.data ≠ .gt := by
    intro h; rw [h] at h1; cases h1
  have g2 : chCmp b.data c.data ≠ .gt := by
    intro h; rw [h] at h2; cases h2
  have g3 := chCmp_trans_le a.data b.data c.data g1 g2
  cases h : chCmp a.data c.data <;> simp_all

lemma strLeb_total (a b : String) : strLeb a b = true ∨ strLeb b a = true := by
  unfold strLeb
  rw [chCmp_swap a.data b.data]
  cases h : chCmp a.data b.data
  · exact Or.inl rfl
  · exact Or.inl rfl
  · exact Or.inr rfl

instance : IsTotal DataPoint dpLE :=
  ⟨fun a b => by
    unfold dpLE strLeP
    exact strLeb_total a.date b.date⟩

instance : IsTrans DataPoint dpLE :=
  ⟨fun _ _ _ h1 h2 => strLeb_trans h1 h2⟩



lemma mapSet_keys (m : List (String × DataPoint)) (dp : DataPoint) :
    (mapSet m dp).map Prod.fst =
      if m.any (fun e => e.1 == dp.date) then m.map Prod.fst
      else m.map Prod.fst ++ [dp.date] := by
  unfold mapSet
  split
  · rw [List.map_map]
    apply List.map_congr_left
    intro e _
    by_cases he : e.1 = dp.date <;> simp [he]
  · simp

lemma mapSet_kv {m : List (String × DataPoint)} (hm : ∀ e ∈ m, e.1 = e.2.date)
    (dp : DataPoint) : ∀ e ∈ mapSet m dp, e.1 = e.2.date := by
  intro e he
  unfold mapSet at he
  split at he
  · obtain ⟨x, hx, hfx⟩ := List.mem_map.mp he
    by_cases hxd : (x.1 == dp.date) = true
    · rw [if_pos hxd] at hfx
      rw [← hfx]
      exact beq_iff_eq.mp hxd
    · rw [if_neg hxd] at hfx
      rw [← hfx]
      exact hm x hx
  · rcases List.mem_append.mp he with h | h
    · exact hm e h
    · rw [List.mem_singleton.mp h]

lemma find?_mapSet_map (m : List (String × DataPoint)) (dp : DataPoint) (d : String) :
    (m.map (fun e => if e.1 == dp.date then (e.1, dp) else e)).find? (fun e => e.1 == d) =
      if d = dp.date then (m.find? (fun e => e.1 == d)).map (fun e => (e.1, dp))
      else m.find? (fun e => e.1 == d) := by
  induction m with
  | nil => by_cases hdd : d = dp.date <;> simp [hdd]
  | cons e m ih =>
    have he1 : (if e.1 == dp.date then ((e.1, dp) : String × DataPoint) else e).1 = e.1 := by
      split <;> rfl
    simp only [List.map_cons, List.find?_cons, he1]
    cases hd : (e.1 == d) with
    | true =>
      by_cases hdd : d = dp.date
      · have hxe : (e.1 == dp.date) = true := by
          rw [← hdd]; exact hd
        simp [List.find?_cons, hxe, hd, hdd]
      · have hxe : (e.1 == dp.date) = false := by
          apply beq_eq_false_iff_ne.mpr
          intro hq
          exact hdd ((beq_iff_eq.mp hd) ▸ hq)
        simp [List.find?_cons, hxe, hd, hdd]
    | false =>
      simp only [List.find?_cons, hd, ih]

lemma dateLookup_mapSet (m : List (String × DataPoint)) (dp : DataPoint) (d : String) :
    dateLookup (mapSet m dp) d = if d = dp.date then some dp else dateLookup m d := by
  unfold mapSet dateLookup
  split
  case isTrue hany =>
    rw [find?_mapSet_map]
    by_cases hdd : d = dp.date
    · rw [if_pos hdd, if_pos hdd]
      obtain ⟨e, hem, hedp⟩ := List.any_eq_true.mp hany
      have hsome : (m.find? (fun e => e.1 == d)).isSome := by
        rw [List.find?_isSome]
        exact ⟨e, hem, by rw [hdd]; exact hedp⟩
      obtain ⟨e', he'⟩ := Option.isSome_iff_exists.mp hsome
      simp [he']
    · rw [if_neg hdd, if_neg hdd]
  case isFalse hany =>
    by_cases hdd : d = dp.date
    · rw [if_pos hdd]
      have hnone : m.find? (fun e => e.1 == d) = none := by
        rw [List.find?_eq_none]
        intro e hem he
        exact hany (List.any_eq_true.mpr ⟨e, hem, by rw [← hdd]; exact he⟩)
      rw [List.find?_append, hnone]
      simp [hdd]
    · rw [if_neg hdd]
      have h1 : (([(dp.date, dp)] : List (String × DataPoint)).find?
          (fun e => e.1 == d)) = none := by
        have hne : (dp.date == d) = false :=
          beq_eq_false_iff_ne.mpr (fun h => hdd h.symm)
        simp [List.find?_cons, hne]
      rw [List.find?_append, h1]
      simp

lemma dateLookup_foldl (d : String) : ∀ (l : List DataPoint) (m : List (String × DataPoint)),
    dateLookup (l.foldl mapSet m) d =
      ((l.filter (fun p => p.date == d)).getLast?).or (dateLookup m d) := by
  intro l
  induction l with
  | nil => intro m; simp
  | cons a l ih =>
    intro m
    rw [List.foldl_cons, ih (mapSet m a), dateLookup_mapSet]
    by_cases had : (a.date == d) = true
    · simp only [List.filter_cons, had, if_true]
      have hda : d = a.date := (beq_iff_eq.mp had).symm
      cases hlf : (l.filter (fun p => p.date == d)).getLast? with
      | some p =>
        have hne : l.filter (fun p => p.date == d) ≠ [] := by
          intro h0; rw [h0] at hlf; cases hlf
        obtain ⟨y, ys, hys⟩ := List.exists_cons_of_ne_nil hne
        rw [hys] at hlf ⊢
        rw [List.getLast?_cons_cons, hlf]
        simp
      | none =>
        have h0 : l.filter (fun p => p.date == d) = [] := by
          cases hq : l.filter (fun p => p.date == d) with
          | nil => rfl
          | cons y ys =>
            rw [hq] at hlf
            exfalso
            have hs : (y :: ys).getLast?.isSome := List.getLast?_isSome.mpr (by simp)
            rw [hlf] at hs
            cases hs
        rw [h0]
        simp [hda]
    · have hadf : (a.date == d) = false := by
        cases hq : (a.date == d) with
        | true => exact absurd hq had
        | false => rfl
      simp only [List.filter_cons, hadf, Bool.false_eq_true, if_false]
      have hda : ¬ d = a.date := by
        intro h
        rw [h] at hadf
        simp at hadf
      rw [if_neg hda]



lemma foldl_mapSet_keys_nodup : ∀ (l : List DataPoint) (m : List (String × DataPoint)),
    (m.map Prod.fst).Nodup → ((l.foldl mapSet m).map Prod.fst).Nodup := by
  intro l
  induction l with
  | nil => intro m hm; exact hm
  | cons a l ih =>
    intro m hm
    rw [List.foldl_cons]
    apply ih
    rw [mapSet_keys]
    split
    · exact hm
    case isFalse hany =>
      rw [List.nodup_append]
      refine ⟨hm, List.nodup_singleton _, ?_⟩
      intro x hx hx1
      rw [List.mem_singleton.mp hx1] at hx
      obtain ⟨e, hem, he⟩ := List.mem_map.mp hx
      exact hany (List.any_eq_true.mpr ⟨e, hem, beq_iff_eq.mpr he⟩)

lemma foldl_mapSet_kv : ∀ (l : List DataPoint) (m : List (String × DataPoint)),
    (∀ e ∈ m, e.1 = e.2.date) → ∀ e ∈ l.foldl mapSet m, e.1 = e.2.date := by
  intro l
  induction l with
  | nil => intro m hm; exact hm
  | cons a l ih =>
    intro m hm
    rw [List.foldl_cons]
    exact ih (mapSet m a) (mapSet_kv hm a)

lemma find?_eq_of_mem_of_nodup_keys {m : List (String × DataPoint)}
    (hnd : (m.map Prod.fst).Nodup) {e : String × DataPoint} (he : e ∈ m) :
    m.find? (fun x => x.1 == e.1) = some e := by
  induction m with
  | nil => cases he
  | cons a m ih =>
    rw [List.map_cons, List.nodup_cons] at hnd
    rcases List.mem_cons.mp he with rfl | he'
    · simp [List.find?_cons]
    · have ha : (a.1 == e.1) = false := by
        apply beq_eq_false_iff_ne.mpr
        intro hq
        exact hnd.1 (hq ▸ List.mem_map.mpr ⟨e, he', rfl⟩)
      simp only [List.find?_cons, ha]
      exact ih hnd.2 he'

lemma orderedInsert_filter_of_ne {a dp : DataPoint} (hne : (a.date == dp.date) = false)
    (l : List DataPoint) :
    (List.orderedInsert dpLE a l).filter (fun p => p.date == dp.date) =
      l.filter (fun p => p.date == dp.date) := by
  rw [List.orderedInsert_eq_take_drop, List.filter_append]
  simp only [List.filter_cons, hne, Bool.false_eq_true, if_false]
  rw [← List.filter_append, List.takeWhile_append_dropWhile]

lemma orderedInsert_filter_of_eq {a dp : DataPoint} (heq : a.date = dp.date)
    (l : List DataPoint) :
    (List.orderedInsert dpLE a l).filter (fun p => p.date == dp.date) =
      a :: l.filter (fun p => p.date == dp.date) := by
  rw [List.orderedInsert_eq_take_drop, List.filter_append]
  have htw : (l.takeWhile (fun b => decide ¬ dpLE a b)).filter
      (fun p => p.date == dp.date) = [] := by
    rw [List.filter_eq_nil_iff]
    intro b hb hbd
    have hmem := List.mem_takeWhile_imp hb
    have hnot : ¬ dpLE a b := by simpa using hmem
    have habs : strLeb a.date b.date = true := by
      rw [beq_iff_eq.mp hbd, ← heq]
      exact strLeb_refl a.date
    exact hnot habs
  rw [htw, List.nil_append]
  have hpa : (a.date == dp.date) = true := beq_iff_eq.mpr heq
  simp only [List.filter_cons, hpa, if_true]
  congr 1
  conv_rhs => rw [← List.takeWhile_append_dropWhile (fun b => decide ¬ dpLE a b) l]
  rw [List.filter_append, htw, List.nil_append]

lemma sort_filter_getLast (pts : List DataPoint) (dp : DataPoint) :
    ((sortDataByDate (pts ++ [dp])).filter (fun p => p.date == dp.date)).getLast? =
      some dp := by
  induction pts with
  | nil =>
    simp [sortDataByDate, List.insertionSort, List.orderedInsert, List.filter_cons]
  | cons a pts ih =>
    have hstep : sortDataByDate ((a :: pts) ++ [dp]) =
        List.orderedInsert dpLE a (sortDataByDate (pts ++ [dp])) := rfl
    rw [hstep]
    by_cases had : a.date = dp.date
    · rw [orderedInsert_filter_of_eq had]
      have hne : (sortDataByDate (pts ++ [dp])).filter
          (fun p => p.date == dp.date) ≠ [] := by
        intro h0; rw [h0] at ih; cases ih
      obtain ⟨y, ys, hys⟩ := List.exists_cons_of_ne_nil hne
      rw [hys] at ih ⊢
      rw [List.getLast?_cons_cons]
      exact ih
    · rw [orderedInsert_filter_of_ne (beq_eq_false_iff_ne.mpr had) _]
      exact ih



lemma energyDedup_eq (pts : List DataPoint) :
    energyDedup pts =
      List.insertionSort dpLE
        (((sortDataByDate pts).foldl mapSet []).map (fun e => e.2)) := rfl

lemma energyDedup_sorted (pts : List DataPoint) :
    List.Sorted dpLE (energyDedup pts) := by
  rw [energyDedup_eq]
  exact List.sorted_insertionSort dpLE _

lemma energyDedup_dates_nodup (pts : List DataPoint) :
    ((energyDedup pts).map (fun p => p.date)).Nodup := by
  rw [energyDedup_eq]
  have hkeys : ((((sortDataByDate pts).foldl mapSet []).map Prod.fst)).Nodup :=
    foldl_mapSet_keys_nodup _ [] (by simp)
  have hkv : ∀ e ∈ (sortDataByDate pts).foldl mapSet [], e.1 = e.2.date :=
    foldl_mapSet_kv _ [] (by simp)
  have hperm := (List.perm_insertionSort dpLE
    (((sortDataByDate pts).foldl mapSet []).map (fun e => e.2))).map (fun p => p.date)
  rw [hperm.nodup_iff, List.map_map]
  have : (((sortDataByDate pts).foldl mapSet []).map
      ((fun p => p.date) ∘ (fun e => e.2))) =
      (((sortDataByDate pts).foldl mapSet []).map Prod.fst) := by
    apply List.map_congr_left
    intro e he
    exact (hkv e he).symm
  rw [this]
  exact hkeys

lemma energyDedup_keeps_last (pts : List DataPoint) (dp : DataPoint) :
    dp ∈ energyDedup (pts ++ [dp]) ∧
      ∀ q ∈ energyDedup (pts ++ [dp]), q.date = dp.date → q = dp := by
  have hM : dateLookup ((sortDataByDate (pts ++ [dp])).foldl mapSet []) dp.date =
      some dp := by
    rw [dateLookup_foldl, sort_filter_getLast]
    rfl
  have hkeys : ((((sortDataByDate (pts ++ [dp])).foldl mapSet []).map Prod.fst)).Nodup :=
    foldl_mapSet_keys_nodup _ [] (by simp)
  have hkv : ∀ e ∈ (sortDataByDate (pts ++ [dp])).foldl mapSet [], e.1 = e.2.date :=
    foldl_mapSet_kv _ [] (by simp)
  have hperm := List.perm_insertionSort dpLE
    (((sortDataByDate (pts ++ [dp])).foldl mapSet []).map (fun e => e.2))
  constructor
  · obtain ⟨e, hfind, he2⟩ : ∃ e,
        ((sortDataByDate (pts ++ [dp])).foldl mapSet []).find?
          (fun x => x.1 == dp.date) = some e ∧ e.2 = dp := by
      unfold dateLookup at hM
      cases hf : ((sortDataByDate (pts ++ [dp])).foldl mapSet []).find?
          (fun e => e.1 == dp.date) with
      | none => rw [hf] at hM; cases hM
      | some e => rw [hf] at hM; exact ⟨e, rfl, by simpa using hM⟩
    have heM := List.mem_of_find?_eq_some hfind
    rw [energyDedup_eq]
    exact (hperm.mem_iff).mpr (List.mem_map.mpr ⟨e, heM, he2⟩)
  · intro q hq hqd
    rw [energyDedup_eq] at hq
    obtain ⟨e, heM, he2⟩ := List.mem_map.mp ((hperm.mem_iff).mp hq)
    have he1 : e.1 = dp.date := by rw [hkv e heM, he2, hqd]
    have hfind := find?_eq_of_mem_of_nodup_keys hkeys heM
    rw [he1] at hfind
    unfold dateLookup at hM
    rw [hfind] at hM
    rw [Option.map_some'] at hM
    rw [← he2]
    exact Option.some.inj hM



lemma transposedZip_cutoff : ∀ (cs : List Cell) (ds : List (Option DateInfo))
    (p : DataPoint), p ∈ transposedZip cs ds → CUTOFF_YEAR ≤ isoYear p.date := by
  intro cs
  induction cs with
  | nil => intro ds p h; cases h
  | cons c cs ih =>
    intro ds p h
    cases ds with
    | nil => cases h
    | cons d? ds =>
      rw [transposedZip] at h
      cases d? with
      | none =>
        cases hv : parseNumericCell c with
        | none => simp only [hv] at h; exact ih ds p h
        | some v => simp only [hv] at h; exact ih ds p h
      | some di =>
        cases hv : parseNumericCell c with
        | none => simp only [hv] at h; exact ih ds p h
        | some v =>
          simp only [hv] at h
          by_cases hy : isoYear di.isoDate < CUTOFF_YEAR
          · rw [if_pos hy] at h
            exact ih ds p h
          · rw [if_neg hy] at h
            rcases List.mem_cons.mp h with rfl | h'
            · exact Nat.not_lt.mp hy
            · exact ih ds p h'

lemma extractFromTransposedSheet_cutoff (rows : Grid) (p : DataPoint)
    (hp : p ∈ extractFromTransposedSheet rows) : CUTOFF_YEAR ≤ isoYear p.date := by
  unfold extractFromTransposedSheet at hp
  cases hs : splitAtSharesHeader rows with
  | none => rw [hs] at hp; cases hp
  | some pr =>
    obtain ⟨hdr, rest⟩ := pr
    rw [hs] at hp
    cases hf : findRenewRow 19 rest with
    | none => simp only [hf] at hp; cases hp
    | some dataRow =>
      simp only [hf] at hp
      exact transposedZip_cutoff _ _ p hp

lemma policeRecent_cutoff (pts : List WorkforceDataPoint) :
    ∀ p ∈ policeRecent pts, strLeb ("2020-01-01") p.date = true := by
  intro p hp
  unfold policeRecent at hp
  have hm := (List.perm_insertionSort wpLE _).mem_iff.mp hp
  simpa using (List.mem_filter.mp hm).2

lemma policeDedupAux_filter (d : String) : ∀ (l acc : List WorkforceDataPoint),
    (policeDedupAux l acc (acc.map (fun p => p.date))).filter (fun p => p.date == d) =
      acc.filter (fun p => p.date == d) ++
        (if (acc.map (fun p => p.date)).contains d
         then [] else (l.filter (fun p => p.date == d)).take 1) := by
  intro l
  induction l with
  | nil =>
    intro acc
    rw [policeDedupAux]
    cases h : (acc.map (fun p => p.date)).contains d <;> simp [h]
  | cons dp l ih =>
    intro acc
    rw [policeDedupAux]
    by_cases hseen : ((acc.map (fun p => p.date)).contains dp.date) = true
    · rw [if_pos hseen, ih acc]
      congr 1
      by_cases hd : ((acc.map (fun p => p.date)).contains d) = true
      · rw [if_pos hd, if_pos hd]
      · rw [if_neg hd, if_neg hd]
        have hnd : (dp.date == d) = false := by
          cases hq : (dp.date == d) with
          | false => rfl
          | true =>
            exfalso
            rw [beq_iff_eq.mp hq] at hseen
            exact hd hseen
        simp only [List.filter_cons, hnd, Bool.false_eq_true, if_false]
    · rw [if_neg hseen]
      have hseenf : ((acc.map (fun p => p.date)).contains dp.date) = false := by
        cases hq : ((acc.map (fun p => p.date)).contains dp.date) with
        | true => exact absurd hq hseen
        | false => rfl
      have hrw : (acc.map (fun p => p.date)) ++ [dp.date] =
          ((acc ++ [dp]).map (fun p => p.date)) := by simp
      rw [hrw, ih (acc ++ [dp]), List.filter_append, List.append_assoc]
      congr 1
      by_cases hd : ((acc.map (fun p => p.date)).contains d) = true
      · have h2 : (((acc ++ [dp]).map (fun p => p.date)).contains d) = true := by
          rw [List.elem_iff, List.map_append]
          exact List.mem_append_left _ (List.elem_iff.mp hd)
        have hnd : (dp.date == d) = false := by
          cases hq : (dp.date == d) with
          | false => rfl
          | true =>
            exfalso
            rw [← beq_iff_eq.mp hq] at hd
            exact hseen hd
        rw [if_pos hd, if_pos h2]
        simp [List.filter_cons, hnd]
      · rw [if_neg hd]
        have hdf : ((acc.map (fun p => p.date)).contains d) = false := by
          cases hq : ((acc.map (fun p => p.date)).contains d) with
          | true => exact absurd hq hd
          | false => rfl
        cases hq : (dp.date == d) with
        | true =>
          have h2 : (((acc ++ [dp]).map (fun p => p.date)).contains d) = true := by
            rw [List.elem_iff, List.map_append]
            exact List.mem_append_right _ (by simp [beq_iff_eq.mp hq])
          rw [if_pos h2]
          simp only [List.filter_cons, hq, if_true]
          rw [List.take_succ_cons, List.take_zero]
          simp [List.filter_cons, hq]
        | false =>
          have h2 : (((acc ++ [dp]).map (fun p => p.date)).contains d) = false := by
            cases hc : (((acc ++ [dp]).map (fun p => p.date)).contains d) with
            | false => rfl
            | true =>
              exfalso
              have hmem := List.elem_iff.mp hc
              rw [List.map_append] at hmem
              rcases List.mem_append.mp hmem with hm | hm
              · exact hd (List.elem_iff.mpr hm)
              · simp only [List.map_cons, List.map_nil, List.mem_singleton] at hm
                rw [hm] at hq
                simp at hq
          rw [if_neg (by intro hc; rw [h2] at hc; cases hc)]
          simp only [List.filter_cons, hq, Bool.false_eq_true, if_false]
          simp [List.filter_cons, hq]

lemma policeDedup_filter (l : List WorkforceDataPoint) (d : String) :
    (policeDedup l).filter (fun p => p.date == d) =
      (l.filter (fun p => p.date == d)).take 1 := by
  have h := policeDedupAux_filter d l []
  simpa [policeDedup] using h



/-- C9, corrected. The workbook extraction and the callers' post-processing:
(i) every point the transposed energy extractor returns has year at least
`CUTOFF_YEAR` (2020); (ii) `fetchEnergyTrends` sorts ascending by date and its
Map-based dedup leaves at most one point per date; (iii) the energy dedup
keeps the later-occurring duplicate (last write wins, as the spec says);
(iv) but `fetchPoliceWorkforce`'s `seenDates` dedup keeps the FIRST point of
each date, not the later one — its output filtered to a date is the first
matching input point; (v) the police caller's recency filter keeps only dates
at or after "2020-01-01". -/
theorem C9_cutoff_sort_dedup :
    (∀ (rows : Grid) (p : DataPoint),
        p ∈ extractFromTransposedSheet rows → CUTOFF_YEAR ≤ isoYear p.date) ∧
    (∀ pts : List DataPoint, List.Sorted dpLE (energyDedup pts) ∧
        ((energyDedup pts).map (fun p => p.date)).Nodup) ∧
    (∀ (pts : List DataPoint) (dp : DataPoint),
        dp ∈ energyDedup (pts ++ [dp]) ∧
        ∀ q ∈ energyDedup (pts ++ [dp]), q.date = dp.date → q = dp) ∧
    (∀ (l : List WorkforceDataPoint) (d : String),
        (policeDedup l).filter (fun p => p.date == d) =
          (l.filter (fun p => p.date == d)).take 1) ∧
    (∀ pts : List WorkforceDataPoint, ∀ p ∈ policeRecent pts,
        strLeb ("2020-01-01") p.date = true) :=
  ⟨extractFromTransposedSheet_cutoff,
   fun pts => ⟨energyDedup_sorted pts, energyDedup_dates_nodup pts⟩,
   energyDedup_keeps_last,
   policeDedup_filter,
   policeRecent_cutoff⟩



lemma splitAtSharesHeader_append {pre : Grid}
    (hpre : ∀ r ∈ pre, sharesHeaderMatch r = false)
    {hr : List Cell} (hhr : sharesHeaderMatch (some hr) = true) (rest : Grid) :
    splitAtSharesHeader (pre ++ (some hr :: rest)) = some (hr, rest) := by
  induction pre with
  | nil =>
    simp only [List.nil_append, splitAtSharesHeader, hhr, if_true]
  | cons r pre ih =>
    have hr0 := hpre r (List.mem_cons_self r pre)
    cases r with
    | none =>
      rw [List.cons_append]
      exact ih (fun x hx => hpre x (List.mem_cons_of_mem _ hx))
    | some row =>
      rw [List.cons_append]
      simp only [splitAtSharesHeader, hr0, Bool.false_eq_true, if_false]
      exact ih (fun x hx => hpre x (List.mem_cons_of_mem _ hx))

lemma findRenewRow_append : ∀ (n : ℕ) (mid : List (List Cell)), mid.length < n →
    (∀ row ∈ mid, renewRowMatch row = false) →
    ∀ (d : List Cell), renewRowMatch d = true → ∀ (rest : Grid),
    findRenewRow n (mid.map some ++ (some d :: rest)) = some d := by
  intro n mid
  induction mid generalizing n with
  | nil =>
    intro hlen hmid d hd rest
    cases n with
    | zero => exact absurd hlen (by simp)
    | succ m =>
      simp only [List.map_nil, List.nil_append, findRenewRow, hd, if_true]
  | cons row mid ih =>
    intro hlen hmid d hd rest
    cases n with
    | zero => exact absurd hlen (by omega)
    | succ m =>
      have h0 := hmid row (List.mem_cons_self _ _)
      simp only [List.map_cons, List.cons_append, findRenewRow, h0,
        Bool.false_eq_true, if_false]
      exact ih m (by simpa using Nat.lt_of_succ_lt_succ (by simpa using hlen))
        (fun x hx => hmid x (List.mem_cons_of_mem _ hx)) d hd rest

lemma transposedZip_map : ∀ cols : List TCol,
    (∀ c ∈ cols, parseTransposedColumnHeader c.hdr = some c.di ∧
      CUTOFF_YEAR ≤ isoYear c.di.isoDate) →
    transposedZip (cols.map (fun c => Cell.num c.val))
        (cols.map (fun c => parseTransposedColumnHeader (jsCellString (Cell.str c.hdr)))) =
      cols.map (fun c => (⟨scaleShareValue c.val, c.di.isoDate, c.di.label⟩ : DataPoint)) := by
  intro cols
  induction cols with
  | nil => intro h; rfl
  | cons c cols ih =>
    intro hcols
    obtain ⟨hp, hy⟩ := hcols c (List.mem_cons_self _ _)
    have hjs : jsCellString (Cell.str c.hdr) = c.hdr := rfl
    simp only [List.map_cons, transposedZip, parseNumericCell, hjs, hp]
    rw [if_neg (by omega)]
    exact congrArg (List.cons _) (ih (fun x hx => hcols x (List.mem_cons_of_mem _ hx)))



/-- C3. For every sheet in the transposed DESNZ layout — any rows without a
shares keyword, then a section-header row whose column 0 holds a
shares-of-electricity keyword and whose remaining columns are period headers,
then at most 18 intermediate metric rows, then the "All renewables" data row —
the extractor returns exactly one point per parseable period column (with year
at or past the cutoff), pairing each data cell positionally with its column
header: scaled value, ISO date and label (police.ts lines 1516-1602). -/
theorem C3_transposed_sheet_extraction (pre : Grid) (title : String)
    (cols : List TCol) (mid : List (List Cell)) (rest : Grid)
    (hpre : ∀ r ∈ pre, sharesHeaderMatch r = false)
    (htitle : sharesHeaderMatch
      (some (Cell.str title :: cols.map (fun c => Cell.str c.hdr))) = true)
    (hmidlen : mid.length ≤ 18)
    (hmid : ∀ row ∈ mid, renewRowMatch row = false)
    (hcols : ∀ c ∈ cols, parseTransposedColumnHeader c.hdr = some c.di ∧
      CUTOFF_YEAR ≤ isoYear c.di.isoDate) :
    extractFromTransposedSheet (transposedGrid pre title cols mid rest) =
      cols.map (fun c =>
        (⟨scaleShareValue c.val, c.di.isoDate, c.di.label⟩ : DataPoint)) := by
  have hd : renewRowMatch
      (Cell.str ("All renewables") :: cols.map (fun c => Cell.num c.val)) = true := rfl
  have hsplit : splitAtSharesHeader (transposedGrid pre title cols mid rest) =
      some (Cell.str title :: cols.map (fun c => Cell.str c.hdr),
        mid.map some ++ (some (Cell.str ("All renewables") ::
          cols.map (fun c => Cell.num c.val)) :: rest)) := by
    unfold transposedGrid
    exact splitAtSharesHeader_append hpre htitle _
  have hfind : findRenewRow 19 (mid.map some ++ (some (Cell.str ("All renewables") ::
        cols.map (fun c => Cell.num c.val)) :: rest)) =
      some (Cell.str ("All renewables") :: cols.map (fun c => Cell.num c.val)) :=
    findRenewRow_append 19 mid (by omega) hmid _ hd rest
  unfold extractFromTransposedSheet
  simp only [hsplit, hfind]
  simp only [List.drop_succ_cons, List.drop_zero, columnDatesOf, List.map_map]
  exact transposedZip_map cols hcols

theorem C3_transposed_sheet_extraction_witness :
    extractFromTransposedSheet exGridC3 =
      [⟨(452 : ℚ)/10, "2024-01-01", "Q1 2024"⟩,
       ⟨(461 : ℚ)/10, "2024-04-01", "Q2 2024"⟩,
       ⟨(448 : ℚ)/10, "2024-07-01", "Q3 2024"⟩,
       ⟨(47 : ℚ), "2024-10-01", "Q4 2024"⟩] := by
  have h := C3_transposed_sheet_extraction [none, none, none, none, none]
    ("SHARES OF ELECTRICITY GENERATED (%)") exCols
    [ [Cell.str ("Onshore wind"), Cell.str ("x"), Cell.str ("x"),
        Cell.str ("x"), Cell.str ("x")],
      [Cell.str ("Offshore wind"), Cell.str ("x"), Cell.str ("x"),
        Cell.str ("x"), Cell.str ("x")] ]
    [] (by decide) (by decide) (by decide) (by decide) (by decide)
  have h452 : q452 = (452 : ℚ)/10 := by
    rw [← Rat.num_div_den q452, show q452.num = 226 from rfl,
      show q452.den = 5 from rfl]
    norm_num
  have h461 : q461 = (461 : ℚ)/10 := by
    rw [← Rat.num_div_den q461, show q461.num = 461 from rfl,
      show q461.den = 10 from rfl]
    norm_num
  have h448 : q448 = (448 : ℚ)/10 := by
    rw [← Rat.num_div_den q448, show q448.num = 224 from rfl,
      show q448.den = 5 from rfl]
    norm_num
  have v1 : scaleShareValue q452 = (452 : ℚ)/10 := by
    rw [h452]; norm_num [scaleShareValue, round_eq]
  have v2 : scaleShareValue q461 = (461 : ℚ)/10 := by
    rw [h461]; norm_num [scaleShareValue, round_eq]
  have v3 : scaleShareValue q448 = (448 : ℚ)/10 := by
    rw [h448]; norm_num [scaleShareValue, round_eq]
  have v4 : scaleShareValue (47 : ℚ) = (47 : ℚ) := by
    norm_num [scaleShareValue, round_eq]
  rw [exGridC3, h]
  simp only [exCols, List.map_cons, List.map_nil]
  rw [v1, v2, v3, v4]

end Dashboard
